import Mathlib

/-!
# CANopen driver (`CO_driver.c`): buffering, demultiplexing and error state

A shallow embedding of the driver functions of `CANopen_Test/CO_driver.c`.

Conventions of the embedding

* C pointers to objects and to functions are natural numbers, `0` being `NULL`.
* A pointer to a transmit slot (`CO_CANtx_t *buffer`) is the index of the slot
  in `CANmodule->txArray`: the only such pointers the driver hands out are
  `&CANmodule->txArray[index]` (`CO_CANtxBufferInit`).
* Unsigned machine integers are natural numbers; where the C code can wrap,
  the reduction modulo `2^w` is written out.  `CANtxCount`, `txSize` and
  `rxSize` are 16-bit (`uint16_t`), identifiers and masks of receive slots are
  16-bit, the identifier of a transmit slot and the fields of a receive
  header are 32-bit, as in the CANopenNode driver headers.
* The hardware abstraction layer and the emergency object are external.  What
  they answer is an argument of the embedded function, what the driver asks
  of them is recorded, in program order, in a list of `Call`s.
* The header files (`CO_driver.h`, `CO_Emergency.h`, `hal_can_async.h`) are
  not part of the sources at hand.  Enumerations declared there are kept
  symbolic (one constructor per enumerator the driver uses).
-/

namespace CANopen

/-- Return codes of the driver, the enumerators of `CO_ReturnError_t` that
`CO_driver.c` uses. -/
inductive CO_ReturnError_t where
  | CO_ERROR_NO
  | CO_ERROR_ILLEGAL_ARGUMENT
  | CO_ERROR_TX_OVERFLOW
  | CO_ERROR_ILLEGAL_BAUDRATE
  | CO_ERROR_HAL
  deriving DecidableEq, Repr

/-- Error status bits handed to the emergency object, the enumerators that
`CO_driver.c` uses. -/
inductive CO_EM_errorStatusBits where
  | CO_EM_CAN_BUS_WARNING
  | CO_EM_CAN_TX_BUS_PASSIVE
  | CO_EM_CAN_TX_BUS_OFF
  | CO_EM_CAN_RXB_OVERFLOW
  | CO_EM_CAN_TX_OVERFLOW
  | CO_EM_TPDO_OUTSIDE_WINDOW
  deriving DecidableEq, Repr

/-- Emergency error codes handed to the emergency object, the enumerators that
`CO_driver.c` uses. -/
inductive CO_EMC where
  | CO_EMC_NO_ERROR
  | CO_EMC_COMMUNICATION
  | CO_EMC_CAN_OVERRUN
  | CO_EMC_CAN_PASSIVE
  | CO_EMC_BUS_OFF_RECOVERED
  deriving DecidableEq, Repr

/-- Frame format of `struct can_message`. -/
inductive can_format where
  | CAN_FMT_STDID
  | CAN_FMT_EXTID
  deriving DecidableEq, Repr

/-- The fields of `struct can_message` that `prepareTxHeader` writes.  The
driver never writes the `data` pointer of the header. -/
structure can_message where
  id : Nat
  type : Nat
  len : Nat
  fmt : can_format
  deriving DecidableEq, Repr

/-- Receive header filled in by `HAL_CAN_GetRxMessage`, the fields the driver
reads (32-bit each). -/
structure CAN_RxHeader where
  StdId : Nat
  RTR : Nat
  DLC : Nat
  deriving DecidableEq, Repr

/-- Received message as handed to a receive callback (`CO_CANrxMsg_t`). -/
structure CO_CANrxMsg_t where
  RxHeader : CAN_RxHeader
  ident : Nat
  DLC : Nat
  data : List Nat
  deriving DecidableEq, Repr

/-- Receive slot (`CO_CANrx_t`). -/
structure CO_CANrx_t where
  ident : Nat
  mask : Nat
  object : Nat
  pFunct : Nat
  deriving DecidableEq, Repr

instance : Inhabited CO_CANrx_t := ⟨⟨0, 0, 0, 0⟩⟩

/-- Transmit slot (`CO_CANtx_t`). -/
structure CO_CANtx_t where
  ident : Nat
  DLC : Nat
  data : List Nat
  bufferFull : Bool
  syncFlag : Bool
  deriving DecidableEq, Repr

instance : Inhabited CO_CANtx_t := ⟨⟨0, 0, [], false, false⟩⟩

/-- The CAN module object (`CO_CANmodule_t`).  `rxArray` and `txArray` are the
slot tables the module points to. -/
structure CO_CANmodule_t where
  CANBaseDescriptor : Nat
  rxArray : List CO_CANrx_t
  rxSize : Nat
  txArray : List CO_CANtx_t
  txSize : Nat
  CANnormal : Bool
  useCANrxFilters : Bool
  bufferInhibitFlag : Bool
  firstCANtxMessage : Bool
  CANtxCount : Nat
  errOld : Nat
  em : Nat
  deriving DecidableEq, Repr

/-- One request of the driver to an external collaborator: the emergency
object (`CO_errorReport`, `CO_errorReset`), the hardware abstraction layer
(`can_async_enable`, `can_async_write`, `HAL_CAN_AddTxMessage`,
`can_async_set_filter`) or a registered receive callback (`pFunct`). -/
inductive Call where
  | CO_errorReport (errorBit : CO_EM_errorStatusBits) (errorCode : CO_EMC) (infoCode : Nat)
  | CO_errorReset (errorBit : CO_EM_errorStatusBits) (infoCode : Nat)
  | can_async_enable (descr : Nat)
  | can_async_write (descr : Nat) (msg : can_message)
  | HAL_CAN_AddTxMessage (descr : Nat) (hdr : can_message) (data : List Nat)
  | can_async_set_filter (descr : Nat) (index : Nat) (fmt : can_format) (id : Nat) (mask : Nat)
  | pFunct (fn : Nat) (object : Nat) (message : CO_CANrxMsg_t)
  deriving DecidableEq, Repr

open CO_ReturnError_t CO_EM_errorStatusBits CO_EMC can_format

/-- `prepareTxHeader`: the wire header of a transmit slot. -/
def prepareTxHeader (buffer : CO_CANtx_t) : can_message :=
  { id := buffer.ident >>> 2
    type := buffer.ident &&& 0x2
    len := buffer.DLC
    fmt := CAN_FMT_STDID }

/-- `CO_CANsend`.  `buffer` is the index of the slot in `txArray`, `TFFL` the
free level of the hardware transmit queue (`hri_can_read_TXFQS_TFFL_bf`) and
`writeOk` tells whether `can_async_write` answers `CO_ERROR_NO`. -/
def CO_CANsend (CANmodule : CO_CANmodule_t) (buffer : Nat) (TFFL : Nat) (writeOk : Bool) :
    CO_CANmodule_t × CO_ReturnError_t × List Call :=
  let b := CANmodule.txArray.getD buffer default
  -- Verify overflow
  let err0 := if b.bufferFull then CO_ERROR_TX_OVERFLOW else CO_ERROR_NO
  let calls0 :=
    if b.bufferFull && !CANmodule.firstCANtxMessage then
      [Call.CO_errorReport CO_EM_CAN_TX_OVERFLOW CO_EMC_CAN_OVERRUN b.ident]
    else []
  let msgHeader := prepareTxHeader b
  if CANmodule.CANtxCount == 0 && decide (TFFL > 0) then
    ({ CANmodule with bufferInhibitFlag := b.syncFlag },
     (if writeOk then err0 else CO_ERROR_HAL),
     calls0 ++ [Call.can_async_write CANmodule.CANBaseDescriptor msgHeader])
  else
    ({ CANmodule with
        txArray := CANmodule.txArray.set buffer { b with bufferFull := true }
        CANtxCount := (CANmodule.CANtxCount + 1) % 65536 },
     err0, calls0)

/-- The loop of `CO_CANclearPendingSyncPDOs`: `i` counts down from `txSize`,
`buffer` walks up the table from its first slot.  Gives the module and
`tpdoDeleted` after the loop. -/
def CO_CANclearPendingSyncPDOs_loop :
    Nat → Nat → CO_CANmodule_t → Nat → CO_CANmodule_t × Nat
  | 0, _, CANmodule, tpdoDeleted => (CANmodule, tpdoDeleted)
  | i + 1, buffer, CANmodule, tpdoDeleted =>
    let b := CANmodule.txArray.getD buffer default
    if b.bufferFull && b.syncFlag then
      CO_CANclearPendingSyncPDOs_loop i (buffer + 1)
        { CANmodule with
            txArray := CANmodule.txArray.set buffer { b with bufferFull := false }
            CANtxCount := (CANmodule.CANtxCount + 65535) % 65536 }
        2
    else
      CO_CANclearPendingSyncPDOs_loop i (buffer + 1) CANmodule tpdoDeleted

/-- `CO_CANclearPendingSyncPDOs`. -/
def CO_CANclearPendingSyncPDOs (CANmodule : CO_CANmodule_t) : CO_CANmodule_t × List Call :=
  let tpdoDeleted0 := if CANmodule.bufferInhibitFlag then 1 else 0
  let m1 := { CANmodule with bufferInhibitFlag := false }
  let r :=
    if m1.CANtxCount != 0 then
      CO_CANclearPendingSyncPDOs_loop m1.txSize 0 m1 tpdoDeleted0
    else (m1, tpdoDeleted0)
  (r.1,
   if r.2 != 0 then
     [Call.CO_errorReport CO_EM_TPDO_OUTSIDE_WINDOW CO_EMC_COMMUNICATION r.2]
   else [])

/-- The loop of `CO_CANpolling_Tx`: `i` counts down from `txSize`, `buffer`
walks up the table from its first slot; the loop is left at the first full
slot.  Gives the value of `i` after the loop, the module and the calls made.
`addOk` tells whether `HAL_CAN_AddTxMessage` answers `HAL_OK`. -/
def CO_CANpolling_Tx_loop (addOk : Bool) :
    Nat → Nat → CO_CANmodule_t → Nat × CO_CANmodule_t × List Call
  | 0, _, CANmodule => (0, CANmodule, [])
  | i + 1, buffer, CANmodule =>
    let b := CANmodule.txArray.getD buffer default
    if b.bufferFull then
      let m1 := { CANmodule with bufferInhibitFlag := b.syncFlag }
      let call := Call.HAL_CAN_AddTxMessage CANmodule.CANBaseDescriptor (prepareTxHeader b) b.data
      if addOk then
        (i + 1,
         { m1 with
            txArray := m1.txArray.set buffer { b with bufferFull := false }
            CANtxCount := (m1.CANtxCount + 65535) % 65536 },
         [call])
      else (i + 1, m1, [call])
    else
      CO_CANpolling_Tx_loop addOk i (buffer + 1) CANmodule

/-- `CO_CANpolling_Tx`.  `freeLevel` is the answer of
`HAL_CAN_GetTxMailboxesFreeLevel`. -/
def CO_CANpolling_Tx (CANmodule : CO_CANmodule_t) (freeLevel : Nat) (addOk : Bool) :
    CO_CANmodule_t × List Call :=
  if freeLevel > 0 then
    let m1 := { CANmodule with firstCANtxMessage := false, bufferInhibitFlag := false }
    if m1.CANtxCount > 0 then
      let r := CO_CANpolling_Tx_loop addOk m1.txSize 0 m1
      -- Clear counter if no more messages
      if r.1 == 0 then ({ r.2.1 with CANtxCount := 0 }, r.2.2) else (r.2.1, r.2.2)
    else (m1, [])
  else (CANmodule, [])

/-- The identifier of an inbound frame in the encoding of the receive slots:
`((uint16_t)(StdId << 2)) | (uint16_t)RTR`. -/
def encodedFrameId (RxHeader : CAN_RxHeader) : Nat :=
  (((RxHeader.StdId <<< 2) % 4294967296) % 65536) ||| (RxHeader.RTR % 65536)

/-- The search loop of `CO_CANinterrupt_Rx` over the receive table: `n` slots
are still to be looked at, `MsgBuff` is the slot looked at next.  Gives
`msgMatched` and `MsgBuff` after the loop. -/
def CO_CANinterrupt_Rx_loop (CANmodule : CO_CANmodule_t) (RxHeader : CAN_RxHeader) :
    Nat → Nat → Bool × Nat
  | 0, MsgBuff => (false, MsgBuff)
  | n + 1, MsgBuff =>
    let slot := CANmodule.rxArray.getD MsgBuff default
    let msg := encodedFrameId RxHeader
    if (msg ^^^ slot.ident) &&& slot.mask == 0 then (true, MsgBuff)
    else CO_CANinterrupt_Rx_loop CANmodule RxHeader n (MsgBuff + 1)

/-- `CO_CANinterrupt_Rx`.  `RxHeader` and `data` are what `HAL_CAN_GetRxMessage`
delivers.  The module is not modified; the result is the list of callbacks
invoked.  `MsgBuff` points into the receive table, so the test
`MsgBuff != NULL` of the source holds and is left out. -/
def CO_CANinterrupt_Rx (CANmodule : CO_CANmodule_t) (RxHeader : CAN_RxHeader)
    (data : List Nat) : List Call :=
  let CANmessage : CO_CANrxMsg_t :=
    { RxHeader := RxHeader, DLC := RxHeader.DLC % 256, ident := RxHeader.StdId, data := data }
  let r := CO_CANinterrupt_Rx_loop CANmodule RxHeader CANmodule.rxSize 0
  let slot := CANmodule.rxArray.getD r.2 default
  if r.1 && slot.pFunct != 0 then [Call.pFunct slot.pFunct slot.object CANmessage] else []

/-- `CO_CANrxBufferInit`.  `CANmodule` is `none` for a null module pointer. -/
def CO_CANrxBufferInit (CANmodule : Option CO_CANmodule_t) (index ident mask : Nat)
    (rtr : Bool) (object pFunct : Nat) :
    Option CO_CANmodule_t × CO_ReturnError_t × List Call :=
  match CANmodule with
  | none => (none, CO_ERROR_ILLEGAL_ARGUMENT, [])
  | some m =>
    if object != 0 && pFunct != 0 && decide (index < m.rxSize) then
      let buffer := m.rxArray.getD index default
      let ident1 := (ident &&& 0x07FF) <<< 2
      let ident2 := if rtr then ident1 ||| 0x02 else ident1
      let mask1 := (mask &&& 0x07FF) <<< 2
      let mask2 := mask1 ||| 0x02
      let buffer1 : CO_CANrx_t :=
        { buffer with object := object, pFunct := pFunct, ident := ident2, mask := mask2 }
      let m1 := { m with rxArray := m.rxArray.set index buffer1 }
      if m.useCANrxFilters then (some m1, CO_ERROR_NO, [])
      else
        (some m1, CO_ERROR_NO,
         [Call.can_async_set_filter m.CANBaseDescriptor 0 CAN_FMT_STDID 0 0])
    else (some m, CO_ERROR_ILLEGAL_ARGUMENT, [])

/-- `CO_CANtxBufferInit`.  `CANmodule` is `none` for a null module pointer; the
slot returned is given by its index, `none` standing for `NULL`. -/
def CO_CANtxBufferInit (CANmodule : Option CO_CANmodule_t) (index ident : Nat)
    (rtr : Bool) (noOfBytes : Nat) (syncFlag : Bool) :
    Option CO_CANmodule_t × Option Nat :=
  match CANmodule with
  | none => (none, none)
  | some m =>
    if index < m.txSize then
      let buffer := m.txArray.getD index default
      let ident1 := (ident <<< 2) % 4294967296
      let ident2 := if rtr then ident1 ||| 0x02 else ident1
      let buffer1 : CO_CANtx_t :=
        { buffer with ident := ident2, DLC := noOfBytes, bufferFull := false, syncFlag := syncFlag }
      (some { m with txArray := m.txArray.set index buffer1 }, some index)
    else (some m, none)

/-- `CO_CANmodule_disable`: the only hardware request is `can_async_enable`. -/
def CO_CANmodule_disable (CANmodule : CO_CANmodule_t) : List Call :=
  [Call.can_async_enable CANmodule.CANBaseDescriptor]

/-- The first loop of `CO_CANmodule_init`, over `rxArray[i]` for `i < rxSize`. -/
def CO_CANmodule_init_rxLoop : Nat → Nat → List CO_CANrx_t → List CO_CANrx_t
  | 0, _, rxArray => rxArray
  | n + 1, i, rxArray =>
    CO_CANmodule_init_rxLoop n (i + 1)
      (rxArray.set i { rxArray.getD i default with ident := 0, pFunct := 0 })

/-- The second loop of `CO_CANmodule_init`, over `txArray[i]` for `i < txSize`. -/
def CO_CANmodule_init_txLoop : Nat → Nat → List CO_CANtx_t → List CO_CANtx_t
  | 0, _, txArray => txArray
  | n + 1, i, txArray =>
    CO_CANmodule_init_txLoop n (i + 1)
      (txArray.set i { txArray.getD i default with bufferFull := false })

/-- The `switch` of `CO_CANmodule_init` on the bit-rate: the prescaler chosen,
`none` for the `default` branch. -/
def CO_CANmodule_init_Prescaler (CANbitRate : Nat) : Option Nat :=
  if CANbitRate = 1000 then some 5
  else if CANbitRate = 500 then some 10
  else if CANbitRate = 250 then some 20
  else if CANbitRate = 125 then some 40
  else if CANbitRate = 100 then some 50
  else if CANbitRate = 50 then some 100
  else if CANbitRate = 20 then some 250
  else if CANbitRate = 10 then some 500
  else none

/-- `CO_CANmodule_init`.  `CANmodule`, `rxArray` and `txArray` are `none` for
null pointers; `enableOk` tells whether the `can_async_enable` of the function
body answers `CO_ERROR_NO`.  The first component is the module object after
the call.  The file-level pointer `RxFifo_Callback_CanModule_p`, which only
selects the module of the receive interrupt, is not part of the state. -/
def CO_CANmodule_init (CANmodule : Option CO_CANmodule_t) (HALCanObject : Nat)
    (rxArray : Option (List CO_CANrx_t)) (rxSize : Nat)
    (txArray : Option (List CO_CANtx_t)) (txSize : Nat)
    (CANbitRate : Nat) (enableOk : Bool) :
    Option CO_CANmodule_t × CO_ReturnError_t × List Call :=
  match CANmodule, rxArray, txArray with
  | some _, some rx, some tx =>
    let m : CO_CANmodule_t :=
      { CANBaseDescriptor := HALCanObject
        rxArray := CO_CANmodule_init_rxLoop rxSize 0 rx
        rxSize := rxSize
        txArray := CO_CANmodule_init_txLoop txSize 0 tx
        txSize := txSize
        CANnormal := false
        useCANrxFilters := false
        bufferInhibitFlag := false
        firstCANtxMessage := true
        CANtxCount := 0
        errOld := 0
        em := 0 }
    let calls := CO_CANmodule_disable m ++ [Call.can_async_enable HALCanObject]
    match CO_CANmodule_init_Prescaler CANbitRate with
    | none => (some m, CO_ERROR_ILLEGAL_BAUDRATE, calls)
    | some _ => (some m, (if enableOk then CO_ERROR_NO else CO_ERROR_HAL), calls)
  | _, _, _ => (CANmodule, CO_ERROR_ILLEGAL_ARGUMENT, [])

/-- `CO_CANsetNormalMode`.  `enableOk` tells whether `can_async_enable` answers
`CO_ERROR_NO`. -/
def CO_CANsetNormalMode (CANmodule : CO_CANmodule_t) (enableOk : Bool) :
    CO_CANmodule_t × CO_ReturnError_t × List Call :=
  let calls := [Call.can_async_enable CANmodule.CANBaseDescriptor]
  if !enableOk then (CANmodule, CO_ERROR_HAL, calls)
  else ({ CANmodule with CANnormal := true }, CO_ERROR_NO, calls)

/-- The bit masks of the hardware error bitmap that `CO_CANverifyErrors` tests.
Their values are declared in a header that is not part of the sources at hand,
so they are a parameter of the embedding. -/
structure HAL_CAN_ERROR_masks where
  HAL_CAN_ERROR_NONE : Nat
  HAL_CAN_ERROR_EWG : Nat
  HAL_CAN_ERROR_EPV : Nat
  HAL_CAN_ERROR_BOF : Nat
  HAL_CAN_ERROR_RX_FOV0 : Nat
  HAL_CAN_ERROR_RX_FOV1 : Nat
  deriving DecidableEq, Repr

/-- `CO_CANverifyErrors`.  `K` gives the bit masks of the error bitmap,
`HalCanErrorCode` is the bitmap the hardware reports (`irq_handler`) and
`isError` the answer of `CO_isError(em, CO_EM_CAN_TX_BUS_PASSIVE)`, which is
asked only on the path where the passive bit is clear.  The calls recorded are
the reports and resets handed to the emergency object. -/
def CO_CANverifyErrors (K : HAL_CAN_ERROR_masks) (CANmodule : CO_CANmodule_t)
    (HalCanErrorCode : Nat) (isError : Bool) : CO_CANmodule_t × List Call :=
  if CANmodule.errOld != HalCanErrorCode then
    let m1 := { CANmodule with errOld := HalCanErrorCode }
    let calls1 :=
      if HalCanErrorCode &&& K.HAL_CAN_ERROR_BOF != 0 then
        -- bus off
        [Call.CO_errorReport CO_EM_CAN_TX_BUS_OFF CO_EMC_BUS_OFF_RECOVERED HalCanErrorCode]
      else
        -- not bus off
        [Call.CO_errorReset CO_EM_CAN_TX_BUS_OFF HalCanErrorCode]
        ++ (if HalCanErrorCode &&& K.HAL_CAN_ERROR_EWG != 0 then
              -- bus warning
              [Call.CO_errorReport CO_EM_CAN_BUS_WARNING CO_EMC_NO_ERROR HalCanErrorCode]
            else [])
        ++ (if HalCanErrorCode &&& K.HAL_CAN_ERROR_EPV != 0 then
              -- TX/RX bus passive
              (if !CANmodule.firstCANtxMessage then
                [Call.CO_errorReport CO_EM_CAN_TX_BUS_PASSIVE CO_EMC_CAN_PASSIVE HalCanErrorCode]
               else [])
            else
              (if isError then
                [Call.CO_errorReset CO_EM_CAN_TX_BUS_PASSIVE HalCanErrorCode,
                 Call.CO_errorReset CO_EM_CAN_TX_OVERFLOW HalCanErrorCode]
               else []))
        ++ (if HalCanErrorCode &&& K.HAL_CAN_ERROR_NONE != 0 then
              -- no error
              [Call.CO_errorReset CO_EM_CAN_BUS_WARNING HalCanErrorCode]
            else [])
    let calls2 :=
      if HalCanErrorCode &&& K.HAL_CAN_ERROR_RX_FOV0 != 0
          || HalCanErrorCode &&& K.HAL_CAN_ERROR_RX_FOV1 != 0 then
        -- CAN RX bus overflow
        [Call.CO_errorReport CO_EM_CAN_RXB_OVERFLOW CO_EMC_CAN_OVERRUN HalCanErrorCode]
      else []
    (m1, calls1 ++ calls2)
  else (CANmodule, [])

/-! ## Well-formed module states -/

/-- Number of transmit slots of a table whose full flag is set. -/
def fullCount (txArray : List CO_CANtx_t) : Nat :=
  txArray.countP (fun b => b.bufferFull)

/-- The transmit table of the module has exactly `txSize` slots and `txSize`
is a 16-bit value. -/
def TxSized (m : CO_CANmodule_t) : Prop :=
  m.txArray.length = m.txSize ∧ m.txSize < 65536

instance (m : CO_CANmodule_t) : Decidable (TxSized m) := by
  unfold TxSized
  infer_instance

/-- The count invariant of the module: `CANtxCount` is the number of transmit
slots whose full flag is set, and it is at most `txSize`. -/
def CountInvariant (m : CO_CANmodule_t) : Prop :=
  m.CANtxCount = fullCount m.txArray ∧ m.CANtxCount ≤ m.txSize

instance (m : CO_CANmodule_t) : Decidable (CountInvariant m) := by
  unfold CountInvariant
  infer_instance

/-- The calls of a trace that go to the emergency object. -/
def emergencyCalls (calls : List Call) : List Call :=
  calls.filter fun c =>
    match c with
    | Call.CO_errorReport _ _ _ => true
    | Call.CO_errorReset _ _ => true
    | _ => false

/-- A transmit slot that is queued for a synchronous window: its full flag
and its `syncFlag` are both set. -/
def fullSync (b : CO_CANtx_t) : Bool :=
  b.bufferFull && b.syncFlag

/-- The slot with its full flag cleared when it is queued and synchronous, the
slot itself otherwise. -/
def clearSync (b : CO_CANtx_t) : CO_CANtx_t :=
  if fullSync b then { b with bufferFull := false } else b

/-- The match condition of the receive search for a frame and a receive slot:
`((encodedFrameId ^ slot.ident) & slot.mask) == 0`. -/
def slotMatches (RxHeader : CAN_RxHeader) (slot : CO_CANrx_t) : Bool :=
  (encodedFrameId RxHeader ^^^ slot.ident) &&& slot.mask == 0

/-- The decoded frame that `CO_CANinterrupt_Rx` hands to a callback. -/
def decodedFrame (RxHeader : CAN_RxHeader) (data : List Nat) : CO_CANrxMsg_t :=
  { RxHeader := RxHeader, DLC := RxHeader.DLC % 256, ident := RxHeader.StdId, data := data }

/-- The reports of the condition `errorBit` among the calls of a trace. -/
def reportsOf (errorBit : CO_EM_errorStatusBits) (calls : List Call) : List Call :=
  calls.filter fun c =>
    match c with
    | Call.CO_errorReport e _ _ => e == errorBit
    | _ => false

/-- The resets of the condition `errorBit` among the calls of a trace. -/
def resetsOf (errorBit : CO_EM_errorStatusBits) (calls : List Call) : List Call :=
  calls.filter fun c =>
    match c with
    | Call.CO_errorReset e _ => e == errorBit
    | _ => false

/-! ## Sample states -/

/-- A transmit slot with the given flags, identifier `0x123 << 2`, 8 bytes. -/
def sampleTx (bufferFull syncFlag : Bool) : CO_CANtx_t :=
  { ident := 0x48C, DLC := 8, data := [1, 2, 3, 4, 5, 6, 7, 8],
    bufferFull := bufferFull, syncFlag := syncFlag }

/-- A module with four transmit slots: two full synchronous slots (0 and 3),
a free slot (1) and a full asynchronous slot (2); the count invariant holds. -/
def sampleModule : CO_CANmodule_t :=
  { CANBaseDescriptor := 1
    rxArray := []
    rxSize := 0
    txArray := [sampleTx true true, sampleTx false false, sampleTx true false, sampleTx true true]
    txSize := 4
    CANnormal := true
    useCANrxFilters := false
    bufferInhibitFlag := false
    firstCANtxMessage := false
    CANtxCount := 3
    errOld := 0
    em := 1 }

/-- A module with one full transmit slot whose `CANtxCount` is 0. -/
def sampleModuleCountZero : CO_CANmodule_t :=
  { sampleModule with txArray := [sampleTx true false], txSize := 1, CANtxCount := 0 }

/-- A module with one full transmit slot, the count invariant holds. -/
def sampleModuleOneFull : CO_CANmodule_t :=
  { sampleModule with txArray := [sampleTx true false], txSize := 1, CANtxCount := 1 }

/-- The state `sampleModule` with the in-flight synchronous marker set. -/
def sampleModuleInhibit : CO_CANmodule_t :=
  { sampleModule with bufferInhibitFlag := true }

/-- The module that `CO_CANmodule_init` sets up on the transmit storage of
`sampleModule`, an empty receive table and hardware handle 7. -/
def sampleModuleAfterInit : CO_CANmodule_t :=
  { CANBaseDescriptor := 7
    rxArray := []
    rxSize := 0
    txArray := [sampleTx false true, sampleTx false false, sampleTx false false,
      sampleTx false true]
    txSize := 4
    CANnormal := false
    useCANrxFilters := false
    bufferInhibitFlag := false
    firstCANtxMessage := true
    CANtxCount := 0
    errOld := 0
    em := 0 }

/-- A module with two registered receive slots for the same identifier
`0x123` (exact match on all 11 bits and on the remote-request bit). -/
def sampleModuleRxTwo : CO_CANmodule_t :=
  { sampleModule with
      rxArray := [{ ident := 0x48C, mask := 0x1FFE, object := 10, pFunct := 100 },
                  { ident := 0x48C, mask := 0x1FFE, object := 20, pFunct := 200 }]
      rxSize := 2 }

/-- A module whose receive slot 0 is not registered (null callback, identifier
and mask 0) and whose slot 1 is registered for identifier `0x123`. -/
def sampleModuleRxNull : CO_CANmodule_t :=
  { sampleModule with
      rxArray := [{ ident := 0, mask := 0, object := 0, pFunct := 0 },
                  { ident := 0x48C, mask := 0x1FFE, object := 20, pFunct := 200 }]
      rxSize := 2 }

/-- A data frame with identifier `0x123` and two bytes of payload. -/
def sampleRxHeader : CAN_RxHeader :=
  { StdId := 0x123, RTR := 0, DLC := 2 }

/-- Sample bit masks of the error bitmap: no-error value 0, warning bit 0,
passive bit 1, bus-off bit 2, receive overflow bits 9 and 10. -/
def sampleMasks : HAL_CAN_ERROR_masks :=
  { HAL_CAN_ERROR_NONE := 0x000
    HAL_CAN_ERROR_EWG := 0x001
    HAL_CAN_ERROR_EPV := 0x002
    HAL_CAN_ERROR_BOF := 0x004
    HAL_CAN_ERROR_RX_FOV0 := 0x200
    HAL_CAN_ERROR_RX_FOV1 := 0x400 }

/-- The state `sampleModule` after a poll that saw the bitmap 1 (with
`sampleMasks`: bus warning). -/
def sampleModuleWarning : CO_CANmodule_t :=
  { sampleModule with errOld := 0x001 }

/-- The state `sampleModule` after a poll that saw the bitmap 4 (with
`sampleMasks`: bus off). -/
def sampleModuleBusOff : CO_CANmodule_t :=
  { sampleModule with errOld := 0x004 }

/-! ## Sending -/

/-- C1. `CO_CANsend` on a registered transmit slot whose full flag is false.
If `CANtxCount` is 0 and the hardware reports a free transmit slot, the frame
of the slot is written to the hardware (one `can_async_write`, with the header
of the slot), the table and `CANtxCount` are unchanged.  Otherwise no request
is made of the hardware, the slot becomes full (nothing else of it changes)
and `CANtxCount` is incremented by one (as the 16-bit counter it is; this is
`CANtxCount + 1` whenever `CANtxCount < 65535`).  In both cases the table keeps
its length and every other slot is unchanged. -/
theorem CO_CANsend_slot_not_full (m : CO_CANmodule_t) (buffer TFFL : Nat) (writeOk : Bool)
    (hlen : m.txArray.length = m.txSize) (hreg : buffer < m.txSize)
    (hfull : (m.txArray.getD buffer default).bufferFull = false) :
    (m.CANtxCount = 0 ∧ 0 < TFFL →
      (CO_CANsend m buffer TFFL writeOk).2.2 =
          [Call.can_async_write m.CANBaseDescriptor
            (prepareTxHeader (m.txArray.getD buffer default))] ∧
        (CO_CANsend m buffer TFFL writeOk).1.txArray = m.txArray ∧
        ((CO_CANsend m buffer TFFL writeOk).1.txArray.getD buffer default).bufferFull = false ∧
        (CO_CANsend m buffer TFFL writeOk).1.CANtxCount = m.CANtxCount) ∧
    (¬ (m.CANtxCount = 0 ∧ 0 < TFFL) →
      (CO_CANsend m buffer TFFL writeOk).2.2 = [] ∧
        (CO_CANsend m buffer TFFL writeOk).1.txArray.getD buffer default =
          { m.txArray.getD buffer default with bufferFull := true } ∧
        (CO_CANsend m buffer TFFL writeOk).1.CANtxCount = (m.CANtxCount + 1) % 65536 ∧
        (m.CANtxCount < 65535 →
          (CO_CANsend m buffer TFFL writeOk).1.CANtxCount = m.CANtxCount + 1)) ∧
    (CO_CANsend m buffer TFFL writeOk).1.txArray.length = m.txArray.length ∧
    (∀ j, j ≠ buffer →
      (CO_CANsend m buffer TFFL writeOk).1.txArray[j]? = m.txArray[j]?) := by
  have hb : buffer < m.txArray.length := by omega
  have hfull1 := hfull
  simp only [List.getD_eq_getElem?_getD] at hfull1
  refine ⟨?_, ?_, ?_, ?_⟩
  · rintro ⟨h0, ht⟩
    simp [CO_CANsend, h0, ht, hfull1]
  · intro hn
    have hc : (m.CANtxCount == 0 && decide (TFFL > 0)) = false := by
      rcases Nat.eq_zero_or_pos TFFL with h | h
      · simp [h]
      · have : m.CANtxCount ≠ 0 := fun h0 => hn ⟨h0, h⟩
        simp [this]
    simp only [CO_CANsend, hc, hfull]
    refine ⟨by simp, ?_, by simp, ?_⟩
    · simp [List.getD_eq_getElem?_getD, hb]
    · intro hlt
      simp
      omega
  · unfold CO_CANsend
    split <;> simp
  · intro j hj
    unfold CO_CANsend
    split
    · simp
    · simp [List.getElem?_set, Ne.symm hj]

/-- Witness of C1: slot 1 of `sampleModule` is free and `CANtxCount` is 3, so
the frame is queued. -/
theorem CO_CANsend_slot_not_full_witness :
    (CO_CANsend sampleModule 1 2 true).2.2 = [] ∧
      (CO_CANsend sampleModule 1 2 true).1.txArray.getD 1 default =
        { sampleModule.txArray.getD 1 default with bufferFull := true } ∧
      (CO_CANsend sampleModule 1 2 true).1.CANtxCount = (sampleModule.CANtxCount + 1) % 65536 ∧
      (sampleModule.CANtxCount < 65535 →
        (CO_CANsend sampleModule 1 2 true).1.CANtxCount = sampleModule.CANtxCount + 1) :=
  (CO_CANsend_slot_not_full sampleModule 1 2 true (by decide) (by decide) (by decide)).2.1
    (by decide)

/-- C2, counterexample.  Slot 0 of `sampleModuleCountZero` is full, `CANtxCount`
is 0 and the hardware has a free slot, so the frame is written to the hardware;
the write fails and `CO_CANsend` returns `CO_ERROR_HAL`, not
`CO_ERROR_TX_OVERFLOW`. -/
theorem CO_CANsend_full_slot_returns_HAL :
    (sampleModuleCountZero.txArray.getD 0 default).bufferFull = true ∧
      (CO_CANsend sampleModuleCountZero 0 1 false).2.1 = CO_ERROR_HAL ∧
      (CO_CANsend sampleModuleCountZero 0 1 false).2.1 ≠ CO_ERROR_TX_OVERFLOW := by
  decide

/-- C2, amended.  `CO_CANsend` on a transmit slot whose full flag is true
returns `CO_ERROR_TX_OVERFLOW`, except when `CANtxCount` is 0, the hardware
reports a free slot and the hardware write fails: then it returns
`CO_ERROR_HAL`.  In every case the calls to the emergency object are exactly
one report of `CO_EM_CAN_TX_OVERFLOW` when `firstCANtxMessage` is false, and
none when it is true. -/
theorem CO_CANsend_slot_full (m : CO_CANmodule_t) (buffer TFFL : Nat) (writeOk : Bool)
    (hfull : (m.txArray.getD buffer default).bufferFull = true) :
    (CO_CANsend m buffer TFFL writeOk).2.1 =
        (if m.CANtxCount = 0 ∧ 0 < TFFL ∧ writeOk = false then CO_ERROR_HAL
         else CO_ERROR_TX_OVERFLOW) ∧
      (m.firstCANtxMessage = false →
        emergencyCalls (CO_CANsend m buffer TFFL writeOk).2.2 =
          [Call.CO_errorReport CO_EM_CAN_TX_OVERFLOW CO_EMC_CAN_OVERRUN
            (m.txArray.getD buffer default).ident]) ∧
      (m.firstCANtxMessage = true →
        emergencyCalls (CO_CANsend m buffer TFFL writeOk).2.2 = []) := by
  have hfull1 := hfull
  simp only [List.getD_eq_getElem?_getD] at hfull1
  refine ⟨?_, ?_, ?_⟩
  · unfold CO_CANsend
    by_cases h0 : m.CANtxCount = 0 <;> by_cases ht : 0 < TFFL <;> cases writeOk <;>
      simp [h0, ht, hfull1]
  · intro hf
    unfold CO_CANsend
    split <;> simp [hfull1, hf, emergencyCalls]
  · intro hf
    unfold CO_CANsend
    split <;> simp [hfull1, hf, emergencyCalls]

/-- Witness of C2 (amended): slot 0 of `sampleModule` is full. -/
theorem CO_CANsend_slot_full_witness :
    (CO_CANsend sampleModule 0 1 false).2.1 =
        (if sampleModule.CANtxCount = 0 ∧ 0 < 1 ∧ false = false then CO_ERROR_HAL
         else CO_ERROR_TX_OVERFLOW) ∧
      (sampleModule.firstCANtxMessage = false →
        emergencyCalls (CO_CANsend sampleModule 0 1 false).2.2 =
          [Call.CO_errorReport CO_EM_CAN_TX_OVERFLOW CO_EMC_CAN_OVERRUN
            (sampleModule.txArray.getD 0 default).ident]) ∧
      (sampleModule.firstCANtxMessage = true →
        emergencyCalls (CO_CANsend sampleModule 0 1 false).2.2 = []) :=
  CO_CANsend_slot_full sampleModule 0 1 false (by decide)

/-! ## Draining the transmit queue -/

/-- Replacing slot `p` of a table changes the number of full slots by the
difference of the full flags of the old and the new slot. -/
theorem fullCount_set (l : List CO_CANtx_t) (p : Nat) (b : CO_CANtx_t) (hp : p < l.length) :
    fullCount (l.set p b) + (if (l.getD p default).bufferFull then 1 else 0) =
      fullCount l + (if b.bufferFull then 1 else 0) := by
  induction l generalizing p with
  | nil => simp at hp
  | cons a l ih =>
    cases p with
    | zero =>
      simp only [List.set_cons_zero, fullCount, List.countP_cons, List.getD_cons_zero]
      omega
    | succ p =>
      have hp1 : p < l.length := by simpa using hp
      have := ih p hp1
      simp only [List.set_cons_succ, fullCount, List.countP_cons, List.getD_cons_succ] at this ⊢
      omega

/-- A table without a full slot has full count 0. -/
theorem fullCount_eq_zero (l : List CO_CANtx_t)
    (h : ∀ j, j < l.length → (l.getD j default).bufferFull = false) : fullCount l = 0 := by
  induction l with
  | nil => rfl
  | cons a l ih =>
    have h0 := h 0 (by simp)
    have hl : ∀ j, j < l.length → (l.getD j default).bufferFull = false := by
      intro j hj
      have := h (j + 1) (by simpa using hj)
      simpa using this
    have := ih hl
    simp only [List.getD_cons_zero] at h0
    simp only [fullCount, List.countP_cons, h0] at this ⊢
    simp [this]

/-- A slot that reads as full lies inside the table. -/
theorem lt_length_of_full (l : List CO_CANtx_t) (k : Nat)
    (h : (l.getD k default).bufferFull = true) : k < l.length := by
  by_contra hk
  have : l.getD k default = default := by
    simp [List.getD_eq_getElem?_getD, List.getElem?_eq_none (Nat.le_of_not_lt hk)]
  rw [this] at h
  exact absurd h (by decide)

/-- The loop of `CO_CANpolling_Tx` either finds no full slot among the `i`
slots from `p` on and ends with `i = 0`, or stops at the lowest full slot
`p + k`, doing there what one iteration on a full slot does. -/
theorem CO_CANpolling_Tx_loop_spec (addOk : Bool) (i : Nat) :
    ∀ (p : Nat) (m : CO_CANmodule_t),
      ((∀ j, j < i → (m.txArray.getD (p + j) default).bufferFull = false) ∧
          CO_CANpolling_Tx_loop addOk i p m = (0, m, [])) ∨
        ∃ k, k < i ∧ (m.txArray.getD (p + k) default).bufferFull = true ∧
          (∀ j, j < k → (m.txArray.getD (p + j) default).bufferFull = false) ∧
          CO_CANpolling_Tx_loop addOk i p m =
            (i - k, (CO_CANpolling_Tx_loop addOk 1 (p + k) m).2) := by
  induction i with
  | zero => intro p m; left; exact ⟨by intro j hj; omega, rfl⟩
  | succ i ih =>
    intro p m
    by_cases hf : (m.txArray.getD p default).bufferFull = true
    · right
      refine ⟨0, by omega, by simpa using hf, by intro j hj; omega, ?_⟩
      cases addOk <;> simp [-List.getD_eq_getElem?_getD, CO_CANpolling_Tx_loop, hf]
    · have hf1 : (m.txArray.getD p default).bufferFull = false := by simpa using hf
      have hstep : CO_CANpolling_Tx_loop addOk (i + 1) p m =
          CO_CANpolling_Tx_loop addOk i (p + 1) m := by
        simp [-List.getD_eq_getElem?_getD, CO_CANpolling_Tx_loop, hf1]
      rcases ih (p + 1) m with ⟨hall, hres⟩ | ⟨k, hk, hfull, hmin, hres⟩
      · left
        refine ⟨?_, by rw [hstep, hres]⟩
        intro j hj
        cases j with
        | zero => simpa using hf1
        | succ j =>
          have := hall j (by omega)
          rwa [show p + 1 + j = p + (j + 1) by omega] at this
      · right
        refine ⟨k + 1, by omega, ?_, ?_, ?_⟩
        · rwa [show p + 1 + k = p + (k + 1) by omega] at hfull
        · intro j hj
          cases j with
          | zero => simpa using hf1
          | succ j =>
            have := hmin j (by omega)
            rwa [show p + 1 + j = p + (j + 1) by omega] at this
        · rw [hstep, hres, show p + 1 + k = p + (k + 1) by omega,
            show i + 1 - (k + 1) = i - k by omega]

/-- One iteration of the loop of `CO_CANpolling_Tx` on a full slot. -/
theorem CO_CANpolling_Tx_loop_one (addOk : Bool) (q : Nat) (m : CO_CANmodule_t)
    (hf : (m.txArray.getD q default).bufferFull = true) :
    (CO_CANpolling_Tx_loop addOk 1 q m).2 =
      (if addOk then
        { m with
            bufferInhibitFlag := (m.txArray.getD q default).syncFlag
            txArray := m.txArray.set q { m.txArray.getD q default with bufferFull := false }
            CANtxCount := (m.CANtxCount + 65535) % 65536 }
       else { m with bufferInhibitFlag := (m.txArray.getD q default).syncFlag },
       [Call.HAL_CAN_AddTxMessage m.CANBaseDescriptor
          (prepareTxHeader (m.txArray.getD q default)) (m.txArray.getD q default).data]) := by
  cases addOk <;> simp [-List.getD_eq_getElem?_getD, CO_CANpolling_Tx_loop, hf]

/-- Among `n` slots of which one is full there is a lowest full slot. -/
theorem exists_lowest_full (l : List CO_CANtx_t) (n : Nat)
    (hex : ∃ i, i < n ∧ (l.getD i default).bufferFull = true) :
    ∃ k, k < n ∧ (l.getD k default).bufferFull = true ∧
      ∀ j, j < k → (l.getD j default).bufferFull = false := by
  classical
  refine ⟨Nat.find hex, (Nat.find_spec hex).1, (Nat.find_spec hex).2, ?_⟩
  intro j hj
  have hlt : j < n := Nat.lt_trans hj (Nat.find_spec hex).1
  have := Nat.find_min hex hj
  cases hb : (l.getD j default).bufferFull with
  | false => rfl
  | true => exact absurd ⟨hlt, hb⟩ this

/-- `CO_CANpolling_Tx` with a free hardware slot, a non-zero count and lowest
full slot `k`: the frame of slot `k` is handed to the hardware; the slot is
cleared and the count decremented when the hardware accepts it. -/
theorem CO_CANpolling_Tx_found (m : CO_CANmodule_t) (freeLevel : Nat) (addOk : Bool) (k : Nat)
    (hfree : 0 < freeLevel) (hcnt : 0 < m.CANtxCount) (hk : k < m.txSize)
    (hfull : (m.txArray.getD k default).bufferFull = true)
    (hmin : ∀ j, j < k → (m.txArray.getD j default).bufferFull = false) :
    CO_CANpolling_Tx m freeLevel addOk =
      (if addOk then
        { m with
            firstCANtxMessage := false
            bufferInhibitFlag := (m.txArray.getD k default).syncFlag
            txArray := m.txArray.set k { m.txArray.getD k default with bufferFull := false }
            CANtxCount := (m.CANtxCount + 65535) % 65536 }
       else
        { m with
            firstCANtxMessage := false
            bufferInhibitFlag := (m.txArray.getD k default).syncFlag },
       [Call.HAL_CAN_AddTxMessage m.CANBaseDescriptor
          (prepareTxHeader (m.txArray.getD k default)) (m.txArray.getD k default).data]) := by
  have hspec := CO_CANpolling_Tx_loop_spec addOk m.txSize 0
    { m with firstCANtxMessage := false, bufferInhibitFlag := false }
  simp only [Nat.zero_add] at hspec
  rcases hspec with ⟨hall, _⟩ | ⟨k', hk', hfull', hmin', hres⟩
  · have := hall k hk
    rw [hfull] at this
    exact absurd this (by decide)
  · have hkk : k' = k := by
      rcases Nat.lt_trichotomy k' k with h | h | h
      · have := hmin k' h
        rw [this] at hfull'
        exact absurd hfull' (by decide)
      · exact h
      · have := hmin' k h
        rw [hfull] at this
        exact absurd this (by decide)
    subst hkk
    have hone := CO_CANpolling_Tx_loop_one addOk k'
      { m with firstCANtxMessage := false, bufferInhibitFlag := false } hfull
    have hne : (m.txSize - k' == 0) = false := by
      have : m.txSize - k' ≠ 0 := by omega
      simpa using this
    unfold CO_CANpolling_Tx
    simp only [gt_iff_lt, hfree, hcnt, if_true, hres, hone, hne]
    cases addOk <;> simp

/-- `CO_CANpolling_Tx` with a free hardware slot, a non-zero count and no full
slot: nothing is sent and the count is cleared. -/
theorem CO_CANpolling_Tx_none (m : CO_CANmodule_t) (freeLevel : Nat) (addOk : Bool)
    (hfree : 0 < freeLevel) (hcnt : 0 < m.CANtxCount)
    (hnone : ∀ j, j < m.txSize → (m.txArray.getD j default).bufferFull = false) :
    CO_CANpolling_Tx m freeLevel addOk =
      ({ m with firstCANtxMessage := false, bufferInhibitFlag := false, CANtxCount := 0 }, []) := by
  have hspec := CO_CANpolling_Tx_loop_spec addOk m.txSize 0
    { m with firstCANtxMessage := false, bufferInhibitFlag := false }
  simp only [Nat.zero_add] at hspec
  rcases hspec with ⟨_, hres⟩ | ⟨k', hk', hfull', _, _⟩
  · unfold CO_CANpolling_Tx
    simp only [gt_iff_lt, hfree, hcnt, if_true, hres]
    simp
  · have := hnone k' hk'
    rw [this] at hfull'
    exact absurd hfull' (by decide)

/-- C4. In a state where the hardware reports a free transmit slot,
`CANtxCount > 0` (a 16-bit value) and some transmit slot is full, a
`CO_CANpolling_Tx` whose hardware write succeeds hands exactly one frame to the
hardware, that of the lowest-index full slot `k`; it clears the full flag of
slot `k` and of no other slot, decrements `CANtxCount` by exactly one and
leaves every other slot, full or not, unchanged. -/
theorem CO_CANpolling_Tx_drains_lowest_full (m : CO_CANmodule_t) (freeLevel : Nat)
    (hfree : 0 < freeLevel) (hcnt : 0 < m.CANtxCount) (hty : m.CANtxCount < 65536)
    (hex : ∃ i, i < m.txSize ∧ (m.txArray.getD i default).bufferFull = true) :
    ∃ k, k < m.txSize ∧ (m.txArray.getD k default).bufferFull = true ∧
      (∀ j, j < k → (m.txArray.getD j default).bufferFull = false) ∧
      (CO_CANpolling_Tx m freeLevel true).2 =
        [Call.HAL_CAN_AddTxMessage m.CANBaseDescriptor
          (prepareTxHeader (m.txArray.getD k default)) (m.txArray.getD k default).data] ∧
      (CO_CANpolling_Tx m freeLevel true).1.txArray =
        m.txArray.set k { m.txArray.getD k default with bufferFull := false } ∧
      ((CO_CANpolling_Tx m freeLevel true).1.txArray.getD k default).bufferFull = false ∧
      (CO_CANpolling_Tx m freeLevel true).1.CANtxCount + 1 = m.CANtxCount ∧
      (∀ j, j ≠ k → (CO_CANpolling_Tx m freeLevel true).1.txArray[j]? = m.txArray[j]?) ∧
      fullCount (CO_CANpolling_Tx m freeLevel true).1.txArray + 1 = fullCount m.txArray := by
  obtain ⟨k, hk, hfull, hmin⟩ := exists_lowest_full m.txArray m.txSize hex
  have hlen : k < m.txArray.length := lt_length_of_full _ _ hfull
  have hres := CO_CANpolling_Tx_found m freeLevel true k hfree hcnt hk hfull hmin
  refine ⟨k, hk, hfull, hmin, ?_⟩
  rw [hres]
  refine ⟨rfl, rfl, ?_, ?_, ?_, ?_⟩
  · simp [List.getD_eq_getElem?_getD, hlen]
  · simp only [if_true]
    omega
  · intro j hj
    simp [List.getElem?_set, Ne.symm hj]
  · have := fullCount_set m.txArray k { m.txArray.getD k default with bufferFull := false } hlen
    simp only [hfull, if_true] at this
    simpa using this

/-- Witness of C4: in `sampleModule` the lowest full slot is slot 0. -/
theorem CO_CANpolling_Tx_drains_lowest_full_witness :
    ∃ k, k < sampleModule.txSize ∧ (sampleModule.txArray.getD k default).bufferFull = true ∧
      (∀ j, j < k → (sampleModule.txArray.getD j default).bufferFull = false) ∧
      (CO_CANpolling_Tx sampleModule 1 true).2 =
        [Call.HAL_CAN_AddTxMessage sampleModule.CANBaseDescriptor
          (prepareTxHeader (sampleModule.txArray.getD k default))
          (sampleModule.txArray.getD k default).data] ∧
      (CO_CANpolling_Tx sampleModule 1 true).1.txArray =
        sampleModule.txArray.set k
          { sampleModule.txArray.getD k default with bufferFull := false } ∧
      ((CO_CANpolling_Tx sampleModule 1 true).1.txArray.getD k default).bufferFull = false ∧
      (CO_CANpolling_Tx sampleModule 1 true).1.CANtxCount + 1 = sampleModule.CANtxCount ∧
      (∀ j, j ≠ k →
        (CO_CANpolling_Tx sampleModule 1 true).1.txArray[j]? = sampleModule.txArray[j]?) ∧
      fullCount (CO_CANpolling_Tx sampleModule 1 true).1.txArray + 1 =
        fullCount sampleModule.txArray :=
  CO_CANpolling_Tx_drains_lowest_full sampleModule 1 (by decide) (by decide) (by decide)
    ⟨0, by decide, by decide⟩

/-- C5. In a state where some transmit slot is full, a `CO_CANpolling_Tx`
whose hardware write fails leaves the whole transmit table (so the full flag
of every slot) and `CANtxCount` unchanged.  When a write was attempted (free
hardware slot, `CANtxCount > 0`) it was for the lowest-index full slot `k`, and
the next poll that finds a free hardware slot attempts the same frame of the
same slot again. -/
theorem CO_CANpolling_Tx_write_fails (m : CO_CANmodule_t) (freeLevel : Nat)
    (hex : ∃ i, i < m.txSize ∧ (m.txArray.getD i default).bufferFull = true) :
    (CO_CANpolling_Tx m freeLevel false).1.txArray = m.txArray ∧
      (CO_CANpolling_Tx m freeLevel false).1.CANtxCount = m.CANtxCount ∧
      (0 < freeLevel → 0 < m.CANtxCount →
        ∃ k, k < m.txSize ∧ (m.txArray.getD k default).bufferFull = true ∧
          (∀ j, j < k → (m.txArray.getD j default).bufferFull = false) ∧
          (CO_CANpolling_Tx m freeLevel false).2 =
            [Call.HAL_CAN_AddTxMessage m.CANBaseDescriptor
              (prepareTxHeader (m.txArray.getD k default)) (m.txArray.getD k default).data] ∧
          ∀ (freeLevel2 : Nat) (addOk2 : Bool), 0 < freeLevel2 →
            (CO_CANpolling_Tx (CO_CANpolling_Tx m freeLevel false).1 freeLevel2 addOk2).2 =
              [Call.HAL_CAN_AddTxMessage m.CANBaseDescriptor
                (prepareTxHeader (m.txArray.getD k default))
                (m.txArray.getD k default).data]) := by
  obtain ⟨k, hk, hfull, hmin⟩ := exists_lowest_full m.txArray m.txSize hex
  by_cases hfree : 0 < freeLevel
  · by_cases hcnt : 0 < m.CANtxCount
    · have hres := CO_CANpolling_Tx_found m freeLevel false k hfree hcnt hk hfull hmin
      rw [hres]
      refine ⟨rfl, rfl, fun _ _ => ⟨k, hk, hfull, hmin, rfl, ?_⟩⟩
      intro freeLevel2 addOk2 hfree2
      have h2 := CO_CANpolling_Tx_found
        { m with
            firstCANtxMessage := false
            bufferInhibitFlag := (m.txArray.getD k default).syncFlag }
        freeLevel2 addOk2 k hfree2 hcnt hk hfull hmin
      simp only [Bool.false_eq_true, if_false]
      rw [h2]
    · have h0 : ¬ (m.CANtxCount > 0) := hcnt
      refine ⟨?_, ?_, fun _ h => absurd h hcnt⟩ <;>
        simp [CO_CANpolling_Tx, hfree, h0]
  · have h0 : ¬ (freeLevel > 0) := hfree
    refine ⟨?_, ?_, fun h => absurd h hfree⟩ <;>
      simp [CO_CANpolling_Tx, h0]

/-- Witness of C5: `sampleModule` has full slots, the lowest is slot 0. -/
theorem CO_CANpolling_Tx_write_fails_witness :
    (CO_CANpolling_Tx sampleModule 1 false).1.txArray = sampleModule.txArray ∧
      (CO_CANpolling_Tx sampleModule 1 false).1.CANtxCount = sampleModule.CANtxCount ∧
      (0 < 1 → 0 < sampleModule.CANtxCount →
        ∃ k, k < sampleModule.txSize ∧
          (sampleModule.txArray.getD k default).bufferFull = true ∧
          (∀ j, j < k → (sampleModule.txArray.getD j default).bufferFull = false) ∧
          (CO_CANpolling_Tx sampleModule 1 false).2 =
            [Call.HAL_CAN_AddTxMessage sampleModule.CANBaseDescriptor
              (prepareTxHeader (sampleModule.txArray.getD k default))
              (sampleModule.txArray.getD k default).data] ∧
          ∀ (freeLevel2 : Nat) (addOk2 : Bool), 0 < freeLevel2 →
            (CO_CANpolling_Tx (CO_CANpolling_Tx sampleModule 1 false).1 freeLevel2 addOk2).2 =
              [Call.HAL_CAN_AddTxMessage sampleModule.CANBaseDescriptor
                (prepareTxHeader (sampleModule.txArray.getD k default))
                (sampleModule.txArray.getD k default).data]) :=
  CO_CANpolling_Tx_write_fails sampleModule 1 ⟨0, by decide, by decide⟩

/-! ## Aborting synchronous frames -/

/-- The loop of `CO_CANclearPendingSyncPDOs` over the slots `rest` that follow
the slots `pre` of the table: every queued synchronous slot of `rest` is
cleared, the 16-bit count is decremented once for each of them, and
`tpdoDeleted` becomes 2 when there is one. -/
theorem CO_CANclearPendingSyncPDOs_loop_spec (rest : List CO_CANtx_t) :
    ∀ (pre : List CO_CANtx_t) (m : CO_CANmodule_t) (d : Nat),
      m.txArray = pre ++ rest → m.CANtxCount < 65536 →
      CO_CANclearPendingSyncPDOs_loop rest.length pre.length m d =
        ({ m with
            txArray := pre ++ rest.map clearSync
            CANtxCount := (m.CANtxCount + 65535 * rest.countP fullSync) % 65536 },
         if rest.any fullSync then 2 else d) := by
  induction rest with
  | nil =>
    intro pre m d h hc
    have hm : m.CANtxCount % 65536 = m.CANtxCount := Nat.mod_eq_of_lt hc
    cases m
    simp only [List.append_nil] at h hm
    subst h
    simp [CO_CANclearPendingSyncPDOs_loop, hm]
  | cons b rest ih =>
    intro pre m d h hc
    have hget : m.txArray.getD pre.length default = b := by
      rw [h]; simp [List.getElem_append_right]
    by_cases hb : fullSync b = true
    · have hb1 : (b.bufferFull && b.syncFlag) = true := hb
      have hstep := ih (pre ++ [{ b with bufferFull := false }])
        { m with
            txArray := m.txArray.set pre.length { b with bufferFull := false }
            CANtxCount := (m.CANtxCount + 65535) % 65536 }
        2 (by rw [h]; simp) (Nat.mod_lt _ (by decide))
      simp only [List.length_append, List.length_singleton] at hstep
      simp only [List.length_cons, CO_CANclearPendingSyncPDOs_loop, hget, hb1, if_true, hstep]
      have hcnt : ((m.CANtxCount + 65535) % 65536 + 65535 * List.countP fullSync rest) % 65536 =
          (m.CANtxCount + 65535 * List.countP fullSync (b :: rest)) % 65536 := by
        rw [List.countP_cons_of_pos _ _ hb]
        omega
      simp [clearSync, hb, hcnt]
    · have hb0 : fullSync b = false := by simpa using hb
      have hb1 : (b.bufferFull && b.syncFlag) = false := hb0
      have hstep := ih (pre ++ [b]) m d (by rw [h]; simp) hc
      simp only [List.length_append, List.length_singleton] at hstep
      simp only [List.length_cons, CO_CANclearPendingSyncPDOs_loop, hget, hb1, hstep]
      simp [clearSync, hb0, List.countP_cons]

/-- There are at most as many queued synchronous slots as full slots. -/
theorem countP_fullSync_le (l : List CO_CANtx_t) : l.countP fullSync ≤ fullCount l := by
  induction l with
  | nil => simp [fullCount]
  | cons b l ih =>
    simp only [fullCount, List.countP_cons] at ih ⊢
    cases hf : b.bufferFull <;> cases hs : b.syncFlag <;>
      simp [fullSync, hf, hs] <;> omega

/-- Clearing the queued synchronous slots lowers the number of full slots by
the number of queued synchronous slots. -/
theorem fullCount_map_clearSync (l : List CO_CANtx_t) :
    fullCount (l.map clearSync) + l.countP fullSync = fullCount l := by
  induction l with
  | nil => simp [fullCount]
  | cons b l ih =>
    simp only [fullCount, List.map_cons, List.countP_cons] at ih ⊢
    cases hf : b.bufferFull <;> cases hs : b.syncFlag <;>
      simp [-List.countP_map, clearSync, fullSync, hf, hs] <;> omega

/-- A table without full slots is not changed by clearing the queued
synchronous slots, and has no such slot. -/
theorem clearSync_of_fullCount_zero (l : List CO_CANtx_t) (h : fullCount l = 0) :
    l.map clearSync = l ∧ l.any fullSync = false := by
  induction l with
  | nil => simp
  | cons b l ih =>
    simp only [fullCount, List.countP_cons] at h ih
    have hb : b.bufferFull = false := by
      cases hf : b.bufferFull with
      | false => rfl
      | true => simp [hf] at h
    have hl : List.countP (fun b => b.bufferFull) l = 0 := by omega
    have := ih hl
    simp [clearSync, fullSync, hb, this.1]
    simpa [fullSync] using this.2

/-- `CO_CANclearPendingSyncPDOs` on a module whose table has `txSize` slots and
whose count is a non-zero 16-bit value. -/
theorem CO_CANclearPendingSyncPDOs_scan (m : CO_CANmodule_t)
    (hlen : m.txArray.length = m.txSize) (hc : m.CANtxCount < 65536) (hne : m.CANtxCount ≠ 0) :
    CO_CANclearPendingSyncPDOs m =
      ({ m with
          bufferInhibitFlag := false
          txArray := m.txArray.map clearSync
          CANtxCount := (m.CANtxCount + 65535 * m.txArray.countP fullSync) % 65536 },
       if (if m.txArray.any fullSync then 2 else if m.bufferInhibitFlag then 1 else 0) != 0 then
         [Call.CO_errorReport CO_EM_TPDO_OUTSIDE_WINDOW CO_EMC_COMMUNICATION
           (if m.txArray.any fullSync then 2 else if m.bufferInhibitFlag then 1 else 0)]
       else []) := by
  have h := CO_CANclearPendingSyncPDOs_loop_spec m.txArray []
    { m with bufferInhibitFlag := false } (if m.bufferInhibitFlag then 1 else 0) rfl hc
  simp only [List.length_nil, List.nil_append] at h
  rw [hlen] at h
  unfold CO_CANclearPendingSyncPDOs
  simp only [h, bne_iff_ne, ne_eq, hne, not_false_eq_true, if_true]

/-- `CO_CANclearPendingSyncPDOs` on a module whose count is 0: the table is not
scanned. -/
theorem CO_CANclearPendingSyncPDOs_skip (m : CO_CANmodule_t) (h0 : m.CANtxCount = 0) :
    CO_CANclearPendingSyncPDOs m =
      ({ m with bufferInhibitFlag := false },
       if m.bufferInhibitFlag then
         [Call.CO_errorReport CO_EM_TPDO_OUTSIDE_WINDOW CO_EMC_COMMUNICATION 1]
       else []) := by
  unfold CO_CANclearPendingSyncPDOs
  cases hb : m.bufferInhibitFlag <;> simp [h0]

/-- `CO_CANclearPendingSyncPDOs` in a state that satisfies the count invariant:
table, count and calls after the call. -/
theorem CO_CANclearPendingSyncPDOs_of_invariant (m : CO_CANmodule_t)
    (hs : TxSized m) (hinv : CountInvariant m) :
    (CO_CANclearPendingSyncPDOs m).1.txArray = m.txArray.map clearSync ∧
      (CO_CANclearPendingSyncPDOs m).1.txSize = m.txSize ∧
      (CO_CANclearPendingSyncPDOs m).1.CANtxCount + m.txArray.countP fullSync = m.CANtxCount ∧
      (CO_CANclearPendingSyncPDOs m).2 =
        (if m.txArray.any fullSync then
          [Call.CO_errorReport CO_EM_TPDO_OUTSIDE_WINDOW CO_EMC_COMMUNICATION 2]
         else if m.bufferInhibitFlag then
          [Call.CO_errorReport CO_EM_TPDO_OUTSIDE_WINDOW CO_EMC_COMMUNICATION 1]
         else []) := by
  obtain ⟨hlen, hsz⟩ := hs
  obtain ⟨hcnt, hle⟩ := hinv
  have hn := countP_fullSync_le m.txArray
  by_cases h0 : m.CANtxCount = 0
  · have hz : fullCount m.txArray = 0 := by omega
    obtain ⟨hmap, hany⟩ := clearSync_of_fullCount_zero m.txArray hz
    rw [CO_CANclearPendingSyncPDOs_skip m h0, hmap, hany]
    refine ⟨rfl, rfl, ?_, by simp⟩
    simp only
    omega
  · have hc : m.CANtxCount < 65536 := by omega
    rw [CO_CANclearPendingSyncPDOs_scan m hlen hc h0]
    refine ⟨rfl, rfl, ?_, ?_⟩
    · simp only
      omega
    · cases m.txArray.any fullSync <;> cases m.bufferInhibitFlag <;> simp

/-- C6. In a state that satisfies the count invariant,
`CO_CANclearPendingSyncPDOs` clears the full flag of exactly the transmit slots
that were full with `syncFlag` set (the table becomes its image under
`clearSync`), decrements `CANtxCount` by the number of these slots (by 2 when
there are two of them), and leaves every slot whose `syncFlag` is false as it
was, a full one included.  A report goes to the emergency object exactly when
the in-flight marker was set or some queued synchronous slot was cleared. -/
theorem CO_CANclearPendingSyncPDOs_clears_sync (m : CO_CANmodule_t)
    (hs : TxSized m) (hinv : CountInvariant m) :
    (CO_CANclearPendingSyncPDOs m).1.txArray = m.txArray.map clearSync ∧
      (∀ (j : Nat) (b : CO_CANtx_t), m.txArray[j]? = some b → fullSync b = true →
        (CO_CANclearPendingSyncPDOs m).1.txArray[j]? = some { b with bufferFull := false }) ∧
      (∀ (j : Nat) (b : CO_CANtx_t), m.txArray[j]? = some b → fullSync b = false →
        (CO_CANclearPendingSyncPDOs m).1.txArray[j]? = some b) ∧
      (∀ (j : Nat) (b : CO_CANtx_t), m.txArray[j]? = some b → b.syncFlag = false →
        (CO_CANclearPendingSyncPDOs m).1.txArray[j]? = some b) ∧
      (CO_CANclearPendingSyncPDOs m).1.CANtxCount + m.txArray.countP fullSync = m.CANtxCount ∧
      (m.txArray.countP fullSync = 2 →
        (CO_CANclearPendingSyncPDOs m).1.CANtxCount + 2 = m.CANtxCount) ∧
      ((CO_CANclearPendingSyncPDOs m).2 ≠ [] ↔
        (m.bufferInhibitFlag = true ∨ ∃ b, b ∈ m.txArray ∧ fullSync b = true)) := by
  obtain ⟨htab, _, hcount, hcalls⟩ := CO_CANclearPendingSyncPDOs_of_invariant m hs hinv
  have hslot : ∀ (j : Nat) (b : CO_CANtx_t), m.txArray[j]? = some b →
      (CO_CANclearPendingSyncPDOs m).1.txArray[j]? = some (clearSync b) := by
    intro j b hj
    rw [htab, List.getElem?_map, hj]
    rfl
  refine ⟨htab, ?_, ?_, ?_, hcount, ?_, ?_⟩
  · intro j b hj hb
    rw [hslot j b hj]
    simp [clearSync, hb]
  · intro j b hj hb
    rw [hslot j b hj]
    simp [clearSync, hb]
  · intro j b hj hb
    rw [hslot j b hj]
    simp [clearSync, fullSync, hb]
  · intro h2
    rw [← h2]
    exact hcount
  · rw [hcalls, ← List.any_eq_true]
    cases m.txArray.any fullSync <;> cases m.bufferInhibitFlag <;> simp

/-- Witness of C6: `sampleModule` has two full synchronous slots (0 and 3) and
a full asynchronous slot (2); the count drops from 3 to 1. -/
theorem CO_CANclearPendingSyncPDOs_clears_sync_witness :
    (CO_CANclearPendingSyncPDOs sampleModule).1.CANtxCount + 2 = sampleModule.CANtxCount ∧
      (CO_CANclearPendingSyncPDOs sampleModule).1.txArray[2]? = some (sampleTx true false) :=
  ⟨(CO_CANclearPendingSyncPDOs_clears_sync sampleModule (by decide) (by decide)).2.2.2.2.2.1
      (by decide),
   (CO_CANclearPendingSyncPDOs_clears_sync sampleModule (by decide) (by decide)).2.2.2.1
      2 (sampleTx true false) (by decide) (by decide)⟩

/-- C7, counterexample.  In `sampleModule` the in-flight marker is not set and
queued synchronous slots are cleared; in `sampleModuleInhibit` the marker is
set and cleared as well as the same queued slots.  The code reported is 2 in
both cases: "queued slots only" and "both" are not distinguished. -/
theorem CO_CANclearPendingSyncPDOs_same_code :
    sampleModule.bufferInhibitFlag = false ∧
      sampleModuleInhibit.bufferInhibitFlag = true ∧
      (CO_CANclearPendingSyncPDOs sampleModuleInhibit).1.bufferInhibitFlag = false ∧
      (CO_CANclearPendingSyncPDOs sampleModule).1.txArray ≠ sampleModule.txArray ∧
      (CO_CANclearPendingSyncPDOs sampleModuleInhibit).1.txArray ≠ sampleModuleInhibit.txArray ∧
      (CO_CANclearPendingSyncPDOs sampleModule).2 =
        [Call.CO_errorReport CO_EM_TPDO_OUTSIDE_WINDOW CO_EMC_COMMUNICATION 2] ∧
      (CO_CANclearPendingSyncPDOs sampleModuleInhibit).2 =
        [Call.CO_errorReport CO_EM_TPDO_OUTSIDE_WINDOW CO_EMC_COMMUNICATION 2] := by
  decide

/-- C7, amended.  For a module whose table has `txSize` slots and whose count
is a 16-bit value, queued synchronous slots are cleared exactly when
`CANtxCount` is not 0 and the table has a full slot with `syncFlag` set.  The
code reported by `CO_CANclearPendingSyncPDOs` is 2 whenever queued slots were
cleared, whether or not the in-flight marker was set; it is 1 when only the
in-flight marker was cleared; nothing is reported when nothing was cleared.
So the code takes two values. -/
theorem CO_CANclearPendingSyncPDOs_code (m : CO_CANmodule_t)
    (hlen : m.txArray.length = m.txSize) (hc : m.CANtxCount < 65536) :
    (m.CANtxCount ≠ 0 → (CO_CANclearPendingSyncPDOs m).1.txArray = m.txArray.map clearSync) ∧
      (m.CANtxCount = 0 → (CO_CANclearPendingSyncPDOs m).1.txArray = m.txArray) ∧
      ((m.CANtxCount ≠ 0 ∧ ∃ b, b ∈ m.txArray ∧ fullSync b = true) →
        (CO_CANclearPendingSyncPDOs m).2 =
          [Call.CO_errorReport CO_EM_TPDO_OUTSIDE_WINDOW CO_EMC_COMMUNICATION 2]) ∧
      (¬ (m.CANtxCount ≠ 0 ∧ ∃ b, b ∈ m.txArray ∧ fullSync b = true) →
        m.bufferInhibitFlag = true →
        (CO_CANclearPendingSyncPDOs m).2 =
          [Call.CO_errorReport CO_EM_TPDO_OUTSIDE_WINDOW CO_EMC_COMMUNICATION 1]) ∧
      (¬ (m.CANtxCount ≠ 0 ∧ ∃ b, b ∈ m.txArray ∧ fullSync b = true) →
        m.bufferInhibitFlag = false →
        (CO_CANclearPendingSyncPDOs m).2 = []) := by
  by_cases h0 : m.CANtxCount = 0
  · rw [CO_CANclearPendingSyncPDOs_skip m h0]
    refine ⟨fun h => absurd h0 h, fun _ => rfl, fun h => absurd h0 h.1, ?_, ?_⟩
    · intro _ hb
      simp [hb]
    · intro _ hb
      simp [hb]
  · rw [CO_CANclearPendingSyncPDOs_scan m hlen hc h0]
    refine ⟨fun _ => rfl, fun h => absurd h h0, ?_, ?_, ?_⟩
    · rintro ⟨_, hex⟩
      have : m.txArray.any fullSync = true := List.any_eq_true.mpr hex
      simp [this]
    · intro hn hb
      have : m.txArray.any fullSync = false := by
        cases ha : m.txArray.any fullSync with
        | false => rfl
        | true => exact absurd ⟨h0, List.any_eq_true.mp ha⟩ hn
      simp [this, hb]
    · intro hn hb
      have : m.txArray.any fullSync = false := by
        cases ha : m.txArray.any fullSync with
        | false => rfl
        | true => exact absurd ⟨h0, List.any_eq_true.mp ha⟩ hn
      simp [this, hb]

/-- Witness of C7 (amended): in `sampleModuleInhibit` the marker and queued
slots are cleared, the code is 2. -/
theorem CO_CANclearPendingSyncPDOs_code_witness :
    (CO_CANclearPendingSyncPDOs sampleModuleInhibit).2 =
      [Call.CO_errorReport CO_EM_TPDO_OUTSIDE_WINDOW CO_EMC_COMMUNICATION 2] :=
  (CO_CANclearPendingSyncPDOs_code sampleModuleInhibit (by decide) (by decide)).2.2.1
    ⟨by decide, sampleTx true true, by decide, by decide⟩

/-! ## The count invariant -/

/-- The second loop of `CO_CANmodule_init` over the slots `rest` that follow
the slots `pre` of the table clears the full flag of every slot of `rest`. -/
theorem CO_CANmodule_init_txLoop_spec (rest : List CO_CANtx_t) :
    ∀ (pre : List CO_CANtx_t),
      CO_CANmodule_init_txLoop rest.length pre.length (pre ++ rest) =
        pre ++ rest.map (fun b => { b with bufferFull := false }) := by
  induction rest with
  | nil => intro pre; simp [CO_CANmodule_init_txLoop]
  | cons b rest ih =>
    intro pre
    have hget : (pre ++ b :: rest).getD pre.length default = b := by
      simp [List.getElem_append_right]
    have hstep := ih (pre ++ [{ b with bufferFull := false }])
    simp only [List.length_append, List.length_singleton, List.append_assoc,
      List.singleton_append] at hstep
    simp only [List.length_cons, CO_CANmodule_init_txLoop, hget, List.map_cons]
    rw [show (pre ++ b :: rest).set pre.length { b with bufferFull := false } =
      pre ++ { b with bufferFull := false } :: rest by simp]
    exact hstep

/-- After a `CO_CANmodule_init` that gets past the argument check, on transmit
storage of `txSize` slots, `txSize` a 16-bit value, the count invariant
holds. -/
theorem CO_CANmodule_init_invariant (CANmodule : Option CO_CANmodule_t) (HALCanObject : Nat)
    (rxArray : Option (List CO_CANrx_t)) (rxSize : Nat)
    (txArray : List CO_CANtx_t) (txSize : Nat) (CANbitRate : Nat) (enableOk : Bool)
    (m : CO_CANmodule_t) (err : CO_ReturnError_t) (calls : List Call)
    (hlen : txArray.length = txSize) (hsz : txSize < 65536)
    (h : CO_CANmodule_init CANmodule HALCanObject rxArray rxSize (some txArray) txSize
      CANbitRate enableOk = (some m, err, calls))
    (herr : err ≠ CO_ERROR_ILLEGAL_ARGUMENT) :
    TxSized m ∧ CountInvariant m := by
  have hloop := CO_CANmodule_init_txLoop_spec txArray []
  simp only [List.length_nil, List.nil_append, hlen] at hloop
  have hzero : fullCount (txArray.map (fun b => { b with bufferFull := false })) = 0 := by
    simp [fullCount, List.countP_eq_zero]
  unfold CO_CANmodule_init at h
  cases CANmodule with
  | none =>
    simp only [Prod.mk.injEq] at h
    exact absurd h.2.1.symm herr
  | some m0 =>
    cases rxArray with
    | none =>
      simp only [Prod.mk.injEq] at h
      exact absurd h.2.1.symm herr
    | some rx =>
      simp only [hloop] at h
      have hm : m.txArray = txArray.map (fun b => { b with bufferFull := false }) ∧
          m.txSize = txSize ∧ m.CANtxCount = 0 := by
        split at h <;>
          (simp only [Prod.mk.injEq, Option.some.injEq] at h
           obtain ⟨hm, _, _⟩ := h
           subst hm
           exact ⟨rfl, rfl, rfl⟩)
      obtain ⟨ht, hs, hc⟩ := hm
      refine ⟨⟨by rw [ht, hs, List.length_map, hlen], by rw [hs]; exact hsz⟩, ?_, ?_⟩
      · rw [ht, hc, hzero]
      · rw [hc]; exact Nat.zero_le _

/-- `CO_CANpolling_Tx` preserves the count invariant, whatever the hardware
answers. -/
theorem CO_CANpolling_Tx_invariant (m : CO_CANmodule_t) (freeLevel : Nat) (addOk : Bool)
    (hs : TxSized m) (hinv : CountInvariant m) :
    TxSized (CO_CANpolling_Tx m freeLevel addOk).1 ∧
      CountInvariant (CO_CANpolling_Tx m freeLevel addOk).1 := by
  obtain ⟨hlen, hsz⟩ := hs
  obtain ⟨hcnt, hle⟩ := hinv
  by_cases hfree : 0 < freeLevel
  · by_cases hpos : 0 < m.CANtxCount
    · by_cases hex : ∃ i, i < m.txSize ∧ (m.txArray.getD i default).bufferFull = true
      · obtain ⟨k, hk, hfull, hmin⟩ := exists_lowest_full m.txArray m.txSize hex
        have hkl : k < m.txArray.length := lt_length_of_full _ _ hfull
        rw [CO_CANpolling_Tx_found m freeLevel addOk k hfree hpos hk hfull hmin]
        cases addOk with
        | false => exact ⟨⟨hlen, hsz⟩, hcnt, hle⟩
        | true =>
          have hset := fullCount_set m.txArray k
            { m.txArray.getD k default with bufferFull := false } hkl
          simp only [hfull, if_true] at hset
          refine ⟨⟨by simpa using hlen, hsz⟩, ?_, ?_⟩
          · simp only [if_true]
            simp only [Bool.false_eq_true, if_false, Nat.add_zero] at hset
            omega
          · simp only [if_true]
            omega
      · have hnone : ∀ j, j < m.txSize → (m.txArray.getD j default).bufferFull = false := by
          intro j hj
          cases hb : (m.txArray.getD j default).bufferFull with
          | false => rfl
          | true => exact absurd ⟨j, hj, hb⟩ hex
        rw [CO_CANpolling_Tx_none m freeLevel addOk hfree hpos hnone]
        refine ⟨⟨hlen, hsz⟩, ?_, Nat.zero_le _⟩
        have := fullCount_eq_zero m.txArray (by rw [hlen]; exact hnone)
        simp [this]
    · have h0 : ¬ (m.CANtxCount > 0) := hpos
      have : CO_CANpolling_Tx m freeLevel addOk =
          ({ m with firstCANtxMessage := false, bufferInhibitFlag := false }, []) := by
        simp [CO_CANpolling_Tx, hfree, h0]
      rw [this]
      exact ⟨⟨hlen, hsz⟩, hcnt, hle⟩
  · have h0 : ¬ (freeLevel > 0) := hfree
    have : CO_CANpolling_Tx m freeLevel addOk = (m, []) := by
      simp [CO_CANpolling_Tx, h0]
    rw [this]
    exact ⟨⟨hlen, hsz⟩, hcnt, hle⟩

/-- `CO_CANclearPendingSyncPDOs` preserves the count invariant. -/
theorem CO_CANclearPendingSyncPDOs_invariant (m : CO_CANmodule_t)
    (hs : TxSized m) (hinv : CountInvariant m) :
    TxSized (CO_CANclearPendingSyncPDOs m).1 ∧
      CountInvariant (CO_CANclearPendingSyncPDOs m).1 := by
  obtain ⟨htab, hsize, hcount, _⟩ := CO_CANclearPendingSyncPDOs_of_invariant m hs hinv
  have hmap := fullCount_map_clearSync m.txArray
  obtain ⟨hlen, hsz⟩ := hs
  obtain ⟨hcnt, hle⟩ := hinv
  refine ⟨⟨by rw [htab, hsize, List.length_map, hlen], by rw [hsize]; exact hsz⟩, ?_, ?_⟩
  · rw [htab]; omega
  · rw [hsize]; omega

/-- `CO_CANsend` on a registered slot that is not full preserves the count
invariant, whatever the hardware answers. -/
theorem CO_CANsend_invariant (m : CO_CANmodule_t) (buffer TFFL : Nat) (writeOk : Bool)
    (hs : TxSized m) (hinv : CountInvariant m) (hreg : buffer < m.txSize)
    (hfull : (m.txArray.getD buffer default).bufferFull = false) :
    TxSized (CO_CANsend m buffer TFFL writeOk).1 ∧
      CountInvariant (CO_CANsend m buffer TFFL writeOk).1 := by
  obtain ⟨hlen, hsz⟩ := hs
  obtain ⟨hcnt, hle⟩ := hinv
  have hb : buffer < m.txArray.length := by omega
  have hset := fullCount_set m.txArray buffer
    { m.txArray.getD buffer default with bufferFull := true } hb
  simp only [hfull, Bool.false_eq_true, if_false, if_true, Nat.add_zero] at hset
  have hbound : fullCount (m.txArray.set buffer
      { m.txArray.getD buffer default with bufferFull := true }) ≤ m.txSize := by
    rw [← hlen]
    have := List.countP_le_length (fun b : CO_CANtx_t => b.bufferFull)
      (l := m.txArray.set buffer { m.txArray.getD buffer default with bufferFull := true })
    simpa [fullCount] using this
  dsimp only at hbound
  unfold CO_CANsend
  split
  · exact ⟨⟨hlen, hsz⟩, hcnt, hle⟩
  · refine ⟨⟨by simpa using hlen, hsz⟩, ?_, ?_⟩
    · simp only
      omega
    · simp only
      omega

/-- `CO_CANtxBufferInit` on a slot that is not full, or with an index out of
range, preserves the count invariant. -/
theorem CO_CANtxBufferInit_invariant (m : CO_CANmodule_t) (index ident : Nat) (rtr : Bool)
    (noOfBytes : Nat) (syncFlag : Bool) (hs : TxSized m) (hinv : CountInvariant m)
    (hfull : (m.txArray.getD index default).bufferFull = false) :
    ∃ m1, (CO_CANtxBufferInit (some m) index ident rtr noOfBytes syncFlag).1 = some m1 ∧
      TxSized m1 ∧ CountInvariant m1 := by
  obtain ⟨hlen, hsz⟩ := hs
  obtain ⟨hcnt, hle⟩ := hinv
  unfold CO_CANtxBufferInit
  by_cases hidx : index < m.txSize
  · have hb : index < m.txArray.length := by omega
    simp only [hidx, if_true]
    refine ⟨_, rfl, ⟨by simpa using hlen, hsz⟩, ?_, hle⟩
    have hset := fullCount_set m.txArray index
      { m.txArray.getD index default with
          ident := (if rtr then (ident <<< 2) % 4294967296 ||| 0x02
            else (ident <<< 2) % 4294967296)
          DLC := noOfBytes, bufferFull := false, syncFlag := syncFlag } hb
    simp only [hfull, Bool.false_eq_true, if_false, Nat.add_zero] at hset
    simp only
    rw [hset]
    exact hcnt
  · simp only [hidx, if_false]
    exact ⟨m, rfl, ⟨hlen, hsz⟩, hcnt, hle⟩

/-- C3, counterexample.  `sampleModuleOneFull` satisfies the count invariant
and its slot 0 is full.  `CO_CANsend` on slot 0 increments `CANtxCount` to 2
while one slot is full; `CO_CANtxBufferInit` on slot 0 clears the full flag
and leaves `CANtxCount` at 1 while no slot is full.  Neither state satisfies
the invariant. -/
theorem count_invariant_broken :
    TxSized sampleModuleOneFull ∧ CountInvariant sampleModuleOneFull ∧
      ¬ CountInvariant (CO_CANsend sampleModuleOneFull 0 0 true).1 ∧
      ∃ m1, (CO_CANtxBufferInit (some sampleModuleOneFull) 0 0x123 false 8 false).1 = some m1 ∧
        ¬ CountInvariant m1 :=
  ⟨by decide, by decide, by decide, _, rfl, by decide⟩

/-- C3, amended.  The count invariant (`CANtxCount` is the number of full
transmit slots and is at most `txSize`) holds after a successful
`CO_CANmodule_init` on transmit storage of `txSize` slots; it is preserved by
`CO_CANpolling_Tx` and `CO_CANclearPendingSyncPDOs` for every hardware answer,
by `CO_CANsend` on a registered slot whose full flag is false, and by
`CO_CANtxBufferInit` on a slot whose full flag is false or with an index out
of range. -/
theorem count_invariant_preserved :
    (∀ (CANmodule : Option CO_CANmodule_t) (HALCanObject : Nat)
        (rxArray : Option (List CO_CANrx_t)) (rxSize : Nat) (txArray : List CO_CANtx_t)
        (txSize CANbitRate : Nat) (enableOk : Bool) (m : CO_CANmodule_t) (calls : List Call),
        txArray.length = txSize → txSize < 65536 →
        CO_CANmodule_init CANmodule HALCanObject rxArray rxSize (some txArray) txSize
          CANbitRate enableOk = (some m, CO_ERROR_NO, calls) →
        TxSized m ∧ CountInvariant m) ∧
      (∀ m : CO_CANmodule_t, TxSized m → CountInvariant m →
        (∀ (freeLevel : Nat) (addOk : Bool),
          TxSized (CO_CANpolling_Tx m freeLevel addOk).1 ∧
            CountInvariant (CO_CANpolling_Tx m freeLevel addOk).1) ∧
        (TxSized (CO_CANclearPendingSyncPDOs m).1 ∧
          CountInvariant (CO_CANclearPendingSyncPDOs m).1) ∧
        (∀ (buffer TFFL : Nat) (writeOk : Bool), buffer < m.txSize →
          (m.txArray.getD buffer default).bufferFull = false →
          TxSized (CO_CANsend m buffer TFFL writeOk).1 ∧
            CountInvariant (CO_CANsend m buffer TFFL writeOk).1) ∧
        (∀ (index ident : Nat) (rtr : Bool) (noOfBytes : Nat) (syncFlag : Bool),
          (m.txArray.getD index default).bufferFull = false →
          ∃ m1, (CO_CANtxBufferInit (some m) index ident rtr noOfBytes syncFlag).1 = some m1 ∧
            TxSized m1 ∧ CountInvariant m1)) := by
  refine ⟨?_, ?_⟩
  · intro CANmodule HALCanObject rxArray rxSize txArray txSize CANbitRate enableOk m calls
      hlen hsz h
    exact CO_CANmodule_init_invariant CANmodule HALCanObject rxArray rxSize txArray txSize
      CANbitRate enableOk m CO_ERROR_NO calls hlen hsz h (by decide)
  · intro m hs hinv
    exact ⟨fun freeLevel addOk => CO_CANpolling_Tx_invariant m freeLevel addOk hs hinv,
      CO_CANclearPendingSyncPDOs_invariant m hs hinv,
      fun buffer TFFL writeOk hreg hfull =>
        CO_CANsend_invariant m buffer TFFL writeOk hs hinv hreg hfull,
      fun index ident rtr noOfBytes syncFlag hfull =>
        CO_CANtxBufferInit_invariant m index ident rtr noOfBytes syncFlag hs hinv hfull⟩

/-- Witness of C3 (amended): a successful `CO_CANmodule_init` on the storage of
`sampleModule`, and a `CO_CANpolling_Tx`, a `CO_CANclearPendingSyncPDOs` and a
`CO_CANsend` on the free slot 1 of `sampleModule`. -/
theorem count_invariant_preserved_witness :
    (TxSized sampleModuleAfterInit ∧ CountInvariant sampleModuleAfterInit) ∧
      CountInvariant (CO_CANpolling_Tx sampleModule 1 true).1 ∧
      CountInvariant (CO_CANclearPendingSyncPDOs sampleModule).1 ∧
      CountInvariant (CO_CANsend sampleModule 1 0 true).1 :=
  ⟨count_invariant_preserved.1 (some sampleModule) 7 (some []) 0 sampleModule.txArray 4 125 true
      sampleModuleAfterInit [Call.can_async_enable 7, Call.can_async_enable 7]
      (by decide) (by decide) (by decide),
   ((count_invariant_preserved.2 sampleModule (by decide) (by decide)).1 1 true).2,
   (count_invariant_preserved.2 sampleModule (by decide) (by decide)).2.1.2,
   ((count_invariant_preserved.2 sampleModule (by decide) (by decide)).2.2.1 1 0 true
      (by decide) (by decide)).2⟩

/-! ## Receive dispatch -/

/-- The search loop of `CO_CANinterrupt_Rx` over `n` slots from `p` on either
finds no matching slot and ends behind the last slot without a match, or
stops at the lowest matching slot `p + k`. -/
theorem CO_CANinterrupt_Rx_loop_spec (m : CO_CANmodule_t) (h : CAN_RxHeader) (n : Nat) :
    ∀ p : Nat,
      ((∀ j, j < n → slotMatches h (m.rxArray.getD (p + j) default) = false) ∧
          CO_CANinterrupt_Rx_loop m h n p = (false, p + n)) ∨
        ∃ k, k < n ∧ slotMatches h (m.rxArray.getD (p + k) default) = true ∧
          (∀ j, j < k → slotMatches h (m.rxArray.getD (p + j) default) = false) ∧
          CO_CANinterrupt_Rx_loop m h n p = (true, p + k) := by
  induction n with
  | zero => intro p; left; exact ⟨by intro j hj; omega, rfl⟩
  | succ n ih =>
    intro p
    by_cases hm : slotMatches h (m.rxArray.getD p default) = true
    · right
      refine ⟨0, by omega, by simpa using hm, by intro j hj; omega, ?_⟩
      have hm1 : ((encodedFrameId h ^^^ (m.rxArray.getD p default).ident) &&&
          (m.rxArray.getD p default).mask == 0) = true := hm
      simp only [CO_CANinterrupt_Rx_loop, hm1, if_true, Nat.add_zero]
    · have hm0 : slotMatches h (m.rxArray.getD p default) = false := by simpa using hm
      have hm1 : ((encodedFrameId h ^^^ (m.rxArray.getD p default).ident) &&&
          (m.rxArray.getD p default).mask == 0) = false := hm0
      have hstep : CO_CANinterrupt_Rx_loop m h (n + 1) p =
          CO_CANinterrupt_Rx_loop m h n (p + 1) := by
        simp only [CO_CANinterrupt_Rx_loop, hm1, Bool.false_eq_true, if_false]
      rcases ih (p + 1) with ⟨hall, hres⟩ | ⟨k, hk, hmk, hmin, hres⟩
      · left
        refine ⟨?_, by rw [hstep, hres]; congr 1; omega⟩
        intro j hj
        cases j with
        | zero => simpa using hm0
        | succ j =>
          have := hall j (by omega)
          rwa [show p + 1 + j = p + (j + 1) by omega] at this
      · right
        refine ⟨k + 1, by omega, ?_, ?_, ?_⟩
        · rwa [show p + 1 + k = p + (k + 1) by omega] at hmk
        · intro j hj
          cases j with
          | zero => simpa using hm0
          | succ j =>
            have := hmin j (by omega)
            rwa [show p + 1 + j = p + (j + 1) by omega] at this
        · rw [hstep, hres, show p + 1 + k = p + (k + 1) by omega]

/-- `CO_CANinterrupt_Rx` when slot `k` is the lowest matching slot: the
callback of slot `k` is invoked when it is not null, nothing otherwise. -/
theorem CO_CANinterrupt_Rx_found (m : CO_CANmodule_t) (h : CAN_RxHeader) (data : List Nat)
    (k : Nat) (hk : k < m.rxSize)
    (hmatch : slotMatches h (m.rxArray.getD k default) = true)
    (hmin : ∀ j, j < k → slotMatches h (m.rxArray.getD j default) = false) :
    CO_CANinterrupt_Rx m h data =
      if (m.rxArray.getD k default).pFunct ≠ 0 then
        [Call.pFunct (m.rxArray.getD k default).pFunct (m.rxArray.getD k default).object
          (decodedFrame h data)]
      else [] := by
  have hspec := CO_CANinterrupt_Rx_loop_spec m h m.rxSize 0
  simp only [Nat.zero_add] at hspec
  rcases hspec with ⟨hall, _⟩ | ⟨k', hk', hmatch', hmin', hres⟩
  · have := hall k hk
    rw [hmatch] at this
    exact absurd this (by decide)
  · have hkk : k' = k := by
      rcases Nat.lt_trichotomy k' k with h1 | h1 | h1
      · have := hmin k' h1
        rw [this] at hmatch'
        exact absurd hmatch' (by decide)
      · exact h1
      · have := hmin' k h1
        rw [hmatch] at this
        exact absurd this (by decide)
    subst hkk
    unfold CO_CANinterrupt_Rx
    simp only [hres, decodedFrame]
    by_cases hp : (m.rxArray.getD k' default).pFunct = 0 <;> simp [hp]

/-- `CO_CANinterrupt_Rx` when no slot matches: no callback is invoked. -/
theorem CO_CANinterrupt_Rx_none (m : CO_CANmodule_t) (h : CAN_RxHeader) (data : List Nat)
    (hnone : ∀ j, j < m.rxSize → slotMatches h (m.rxArray.getD j default) = false) :
    CO_CANinterrupt_Rx m h data = [] := by
  have hspec := CO_CANinterrupt_Rx_loop_spec m h m.rxSize 0
  simp only [Nat.zero_add] at hspec
  rcases hspec with ⟨_, hres⟩ | ⟨k', hk', hmatch', _, _⟩
  · unfold CO_CANinterrupt_Rx
    simp [hres]
  · have := hnone k' hk'
    rw [this] at hmatch'
    exact absurd hmatch' (by decide)

/-- Among `n` receive slots of which one matches there is a lowest matching
slot. -/
theorem exists_lowest_match (l : List CO_CANrx_t) (h : CAN_RxHeader) (n : Nat)
    (hex : ∃ i, i < n ∧ slotMatches h (l.getD i default) = true) :
    ∃ k, k < n ∧ slotMatches h (l.getD k default) = true ∧
      ∀ j, j < k → slotMatches h (l.getD j default) = false := by
  classical
  refine ⟨Nat.find hex, (Nat.find_spec hex).1, (Nat.find_spec hex).2, ?_⟩
  intro j hj
  have hlt : j < n := Nat.lt_trans hj (Nat.find_spec hex).1
  have := Nat.find_min hex hj
  cases hb : slotMatches h (l.getD j default) with
  | false => rfl
  | true => exact absurd ⟨hlt, hb⟩ this

/-- C8, counterexample.  In `sampleModuleRxTwo` slot 1 is registered and
satisfies the match condition for the frame `sampleRxHeader`, yet its callback
is not invoked: slot 0 matches first and only its callback runs.  In
`sampleModuleRxNull` the registered slot 1 matches, yet no callback at all is
invoked: the unregistered slot 0 (mask 0) matches first. -/
theorem CO_CANinterrupt_Rx_later_match_not_invoked :
    ((sampleModuleRxTwo.rxArray.getD 1 default).pFunct ≠ 0 ∧
        slotMatches sampleRxHeader (sampleModuleRxTwo.rxArray.getD 1 default) = true ∧
        CO_CANinterrupt_Rx sampleModuleRxTwo sampleRxHeader [0xAA, 0xBB] =
          [Call.pFunct 100 10 (decodedFrame sampleRxHeader [0xAA, 0xBB])] ∧
        Call.pFunct 200 20 (decodedFrame sampleRxHeader [0xAA, 0xBB]) ∉
          CO_CANinterrupt_Rx sampleModuleRxTwo sampleRxHeader [0xAA, 0xBB]) ∧
      ((sampleModuleRxNull.rxArray.getD 1 default).pFunct ≠ 0 ∧
        slotMatches sampleRxHeader (sampleModuleRxNull.rxArray.getD 1 default) = true ∧
        CO_CANinterrupt_Rx sampleModuleRxNull sampleRxHeader [0xAA, 0xBB] = []) := by
  decide

/-- C8, amended.  For every receive table and every inbound frame: if the
lowest-index slot that satisfies the match condition
`(encodedFrameId XOR slot.ident) AND slot.mask = 0` is registered (non-null
callback), `CO_CANinterrupt_Rx` invokes the callback of that slot exactly once
and no other callback, with the owning context of that slot and the decoded
frame (`ident = StdId`, `DLC`, payload); if no slot satisfies the match
condition, no callback is invoked. -/
theorem CO_CANinterrupt_Rx_dispatch (m : CO_CANmodule_t) (h : CAN_RxHeader) (data : List Nat) :
    (∀ k, k < m.rxSize → slotMatches h (m.rxArray.getD k default) = true →
        (∀ j, j < k → slotMatches h (m.rxArray.getD j default) = false) →
        (m.rxArray.getD k default).pFunct ≠ 0 →
        CO_CANinterrupt_Rx m h data =
          [Call.pFunct (m.rxArray.getD k default).pFunct (m.rxArray.getD k default).object
            { RxHeader := h, ident := h.StdId, DLC := h.DLC % 256, data := data }]) ∧
      ((∀ j, j < m.rxSize → slotMatches h (m.rxArray.getD j default) = false) →
        CO_CANinterrupt_Rx m h data = []) := by
  refine ⟨?_, CO_CANinterrupt_Rx_none m h data⟩
  intro k hk hmatch hmin hp
  rw [CO_CANinterrupt_Rx_found m h data k hk hmatch hmin, if_pos hp]
  rfl

/-- Witness of C8 (amended): slot 0 of `sampleModuleRxTwo` is the lowest
matching slot for `sampleRxHeader` and is registered. -/
theorem CO_CANinterrupt_Rx_dispatch_witness :
    CO_CANinterrupt_Rx sampleModuleRxTwo sampleRxHeader [0xAA, 0xBB] =
      [Call.pFunct (sampleModuleRxTwo.rxArray.getD 0 default).pFunct
        (sampleModuleRxTwo.rxArray.getD 0 default).object
        { RxHeader := sampleRxHeader, ident := sampleRxHeader.StdId,
          DLC := sampleRxHeader.DLC % 256, data := [0xAA, 0xBB] }] :=
  (CO_CANinterrupt_Rx_dispatch sampleModuleRxTwo sampleRxHeader [0xAA, 0xBB]).1 0
    (by decide) (by decide) (by intro j hj; omega) (by decide)

/-- C9.  `CO_CANinterrupt_Rx` invokes at most one callback.  A callback that
is invoked is the one of the lowest-index slot satisfying the match condition,
called with the context of that slot.  When `k` is the lowest-index matching
slot, nothing is invoked if its callback is null, and the outcome is the same
for every table that agrees with this one on the slots `0..k`: the slots after
the first matching one are not consulted, whether they match or not. -/
theorem CO_CANinterrupt_Rx_first_match (m : CO_CANmodule_t) (h : CAN_RxHeader)
    (data : List Nat) :
    (CO_CANinterrupt_Rx m h data).length ≤ 1 ∧
      (∀ c, c ∈ CO_CANinterrupt_Rx m h data →
        ∃ k, k < m.rxSize ∧ slotMatches h (m.rxArray.getD k default) = true ∧
          (∀ j, j < k → slotMatches h (m.rxArray.getD j default) = false) ∧
          (m.rxArray.getD k default).pFunct ≠ 0 ∧
          c = Call.pFunct (m.rxArray.getD k default).pFunct (m.rxArray.getD k default).object
            (decodedFrame h data)) ∧
      (∀ k, k < m.rxSize → slotMatches h (m.rxArray.getD k default) = true →
        (∀ j, j < k → slotMatches h (m.rxArray.getD j default) = false) →
        ((m.rxArray.getD k default).pFunct = 0 → CO_CANinterrupt_Rx m h data = []) ∧
        (∀ m2 : CO_CANmodule_t, m2.rxSize = m.rxSize →
          (∀ j, j ≤ k → m2.rxArray.getD j default = m.rxArray.getD j default) →
          CO_CANinterrupt_Rx m2 h data = CO_CANinterrupt_Rx m h data)) := by
  have hcases : (∀ j, j < m.rxSize → slotMatches h (m.rxArray.getD j default) = false) ∨
      ∃ k, k < m.rxSize ∧ slotMatches h (m.rxArray.getD k default) = true ∧
        ∀ j, j < k → slotMatches h (m.rxArray.getD j default) = false := by
    by_cases hex : ∃ i, i < m.rxSize ∧ slotMatches h (m.rxArray.getD i default) = true
    · exact Or.inr (exists_lowest_match m.rxArray h m.rxSize hex)
    · left
      intro j hj
      cases hb : slotMatches h (m.rxArray.getD j default) with
      | false => rfl
      | true => exact absurd ⟨j, hj, hb⟩ hex
  refine ⟨?_, ?_, ?_⟩
  · rcases hcases with hnone | ⟨k, hk, hmatch, hmin⟩
    · rw [CO_CANinterrupt_Rx_none m h data hnone]
      simp
    · rw [CO_CANinterrupt_Rx_found m h data k hk hmatch hmin]
      split <;> simp
  · intro c hc
    rcases hcases with hnone | ⟨k, hk, hmatch, hmin⟩
    · rw [CO_CANinterrupt_Rx_none m h data hnone] at hc
      simp at hc
    · rw [CO_CANinterrupt_Rx_found m h data k hk hmatch hmin] at hc
      by_cases hp : (m.rxArray.getD k default).pFunct = 0
      · rw [if_neg (fun hne => hne hp)] at hc
        exact absurd hc (List.not_mem_nil c)
      · rw [if_pos hp] at hc
        exact ⟨k, hk, hmatch, hmin, hp, by simpa using hc⟩
  · intro k hk hmatch hmin
    refine ⟨?_, ?_⟩
    · intro hp
      rw [CO_CANinterrupt_Rx_found m h data k hk hmatch hmin, if_neg (fun hne => hne hp)]
    · intro m2 hsize hagree
      have hk2 : k < m2.rxSize := by rw [hsize]; exact hk
      have hmatch2 : slotMatches h (m2.rxArray.getD k default) = true := by
        rw [hagree k (Nat.le_refl k)]; exact hmatch
      have hmin2 : ∀ j, j < k → slotMatches h (m2.rxArray.getD j default) = false := by
        intro j hj
        rw [hagree j (Nat.le_of_lt hj)]
        exact hmin j hj
      rw [CO_CANinterrupt_Rx_found m h data k hk hmatch hmin,
        CO_CANinterrupt_Rx_found m2 h data k hk2 hmatch2 hmin2, hagree k (Nat.le_refl k)]

/-- Witness of C9: in `sampleModuleRxNull` the lowest matching slot 0 has a null
callback, so nothing is invoked although slot 1 matches as well. -/
theorem CO_CANinterrupt_Rx_first_match_witness :
    slotMatches sampleRxHeader (sampleModuleRxNull.rxArray.getD 1 default) = true ∧
      CO_CANinterrupt_Rx sampleModuleRxNull sampleRxHeader [0xAA, 0xBB] = [] :=
  ⟨by decide,
   ((CO_CANinterrupt_Rx_first_match sampleModuleRxNull sampleRxHeader [0xAA, 0xBB]).2.2 0
      (by decide) (by decide) (by intro j hj; omega)).1 (by decide)⟩

/-! ## Registering a receive slot -/

/-- C10.  `CO_CANrxBufferInit` returns `CO_ERROR_ILLEGAL_ARGUMENT` exactly when
the module is null, the context object is null, the callback is null or
`index >= rxSize`; otherwise it returns `CO_ERROR_NO`.  On the
illegal-argument result the module, so its receive table, is unchanged and no
call is made, in particular no hardware filter call. -/
theorem CO_CANrxBufferInit_illegal_argument (CANmodule : Option CO_CANmodule_t)
    (index ident mask : Nat) (rtr : Bool) (object pFunct : Nat) :
    ((CO_CANrxBufferInit CANmodule index ident mask rtr object pFunct).2.1 =
          CO_ERROR_ILLEGAL_ARGUMENT ↔
        (CANmodule = none ∨ object = 0 ∨ pFunct = 0 ∨
          ∃ m, CANmodule = some m ∧ m.rxSize ≤ index)) ∧
      ((CO_CANrxBufferInit CANmodule index ident mask rtr object pFunct).2.1 ≠
          CO_ERROR_ILLEGAL_ARGUMENT →
        (CO_CANrxBufferInit CANmodule index ident mask rtr object pFunct).2.1 = CO_ERROR_NO) ∧
      ((CO_CANrxBufferInit CANmodule index ident mask rtr object pFunct).2.1 =
          CO_ERROR_ILLEGAL_ARGUMENT →
        (CO_CANrxBufferInit CANmodule index ident mask rtr object pFunct).1 = CANmodule ∧
        (CO_CANrxBufferInit CANmodule index ident mask rtr object pFunct).2.2 = []) := by
  cases CANmodule with
  | none => simp [CO_CANrxBufferInit]
  | some m =>
    by_cases ho : object = 0
    · simp [CO_CANrxBufferInit, ho]
    · by_cases hp : pFunct = 0
      · simp [CO_CANrxBufferInit, hp]
      · by_cases hi : index < m.rxSize
        · have hi2 : ¬ m.rxSize ≤ index := by omega
          cases hf : m.useCANrxFilters <;> simp [CO_CANrxBufferInit, ho, hp, hi, hi2, hf]
        · have hi2 : m.rxSize ≤ index := by omega
          simp [CO_CANrxBufferInit, ho, hp, hi, hi2]

/-- Bit `i` of the number 2 is set exactly for `i = 1`. -/
theorem testBit_two (i : Nat) : Nat.testBit 2 i = decide (i = 1) := by
  have h := @Nat.testBit_two_pow 1 i
  simpa [eq_comm] using h

/-- C11, counterexample.  Registering receive slot 1 of `sampleModuleRxTwo` for
identifier `0x123`, mask `0x7FF` and `rtr = false` succeeds and stores the
mask `0x1FFE`: bit 1 of the stored mask is set although the slot is not for
remote requests. -/
theorem CO_CANrxBufferInit_mask_bit_set :
    (CO_CANrxBufferInit (some sampleModuleRxTwo) 1 0x123 0x7FF false 20 200).2.1 = CO_ERROR_NO ∧
      ∃ m1, (CO_CANrxBufferInit (some sampleModuleRxTwo) 1 0x123 0x7FF false 20 200).1 = some m1 ∧
        (m1.rxArray.getD 1 default).mask = 0x1FFE ∧
        Nat.testBit (m1.rxArray.getD 1 default).mask 1 = true :=
  ⟨by decide, _, rfl, by decide, by decide⟩

/-- C11, amended.  After a successful `CO_CANrxBufferInit` on a receive table
of `rxSize` slots, the slot at `index` stores
`ident = (identifier AND 0x7FF) << 2` with bit 1 set iff `rtr`, and
`mask = (mask AND 0x7FF) << 2` with bit 1 always set, whatever `rtr` is; bit 0
of both is zero; the slot holds the context and the callback given; all other
slots are unchanged. -/
theorem CO_CANrxBufferInit_stores (m : CO_CANmodule_t) (index ident mask : Nat) (rtr : Bool)
    (object pFunct : Nat) (hlen : m.rxArray.length = m.rxSize)
    (hsucc : (CO_CANrxBufferInit (some m) index ident mask rtr object pFunct).2.1 =
      CO_ERROR_NO) :
    ∃ m1, (CO_CANrxBufferInit (some m) index ident mask rtr object pFunct).1 = some m1 ∧
      (m1.rxArray.getD index default).ident =
        (if rtr then (ident &&& 0x7FF) <<< 2 ||| 2 else (ident &&& 0x7FF) <<< 2) ∧
      Nat.testBit (m1.rxArray.getD index default).ident 1 = rtr ∧
      Nat.testBit (m1.rxArray.getD index default).ident 0 = false ∧
      (m1.rxArray.getD index default).mask = (mask &&& 0x7FF) <<< 2 ||| 2 ∧
      Nat.testBit (m1.rxArray.getD index default).mask 1 = true ∧
      Nat.testBit (m1.rxArray.getD index default).mask 0 = false ∧
      (m1.rxArray.getD index default).object = object ∧
      (m1.rxArray.getD index default).pFunct = pFunct ∧
      m1.rxArray.length = m.rxArray.length ∧
      (∀ j, j ≠ index → m1.rxArray[j]? = m.rxArray[j]?) := by
  have hguard : (object != 0 && pFunct != 0 && decide (index < m.rxSize)) = true := by
    cases hg : (object != 0 && pFunct != 0 && decide (index < m.rxSize)) with
    | true => rfl
    | false =>
      simp [CO_CANrxBufferInit, hg] at hsucc
  have hidx : index < m.rxArray.length := by
    simp only [Bool.and_eq_true, decide_eq_true_eq] at hguard
    omega
  have hres : ∃ calls, CO_CANrxBufferInit (some m) index ident mask rtr object pFunct =
      (some { m with
          rxArray := m.rxArray.set index
            { m.rxArray.getD index default with
                object := object, pFunct := pFunct
                ident := (if rtr then (ident &&& 0x7FF) <<< 2 ||| 2 else (ident &&& 0x7FF) <<< 2)
                mask := (mask &&& 0x7FF) <<< 2 ||| 2 } },
        CO_ERROR_NO, calls) := by
    simp only [CO_CANrxBufferInit, hguard, if_true]
    cases m.useCANrxFilters
    · exact ⟨_, rfl⟩
    · exact ⟨_, rfl⟩
  obtain ⟨calls, hres⟩ := hres
  rw [hres]
  refine ⟨_, rfl, ?_⟩
  have hget : ∀ b : CO_CANrx_t, (m.rxArray.set index b).getD index default = b := by
    intro b
    simp [List.getD_eq_getElem?_getD, hidx]
  simp only [hget]
  refine ⟨by trivial, ?_, ?_, by trivial, ?_, ?_, by trivial, by trivial, by simp, ?_⟩
  · cases rtr <;>
      simp [Nat.testBit_or, Nat.testBit_shiftLeft, testBit_two]
  · cases rtr <;>
      simp [Nat.testBit_or, Nat.testBit_shiftLeft, testBit_two]
  · simp [Nat.testBit_or, Nat.testBit_shiftLeft, testBit_two]
  · simp [Nat.testBit_or, Nat.testBit_shiftLeft, testBit_two]
  · intro j hj
    simp [List.getElem?_set, Ne.symm hj]

/-- Witness of C11 (amended): registering slot 1 of `sampleModuleRxTwo` for
remote requests with identifier `0x123`. -/
theorem CO_CANrxBufferInit_stores_witness :
    ∃ m1, (CO_CANrxBufferInit (some sampleModuleRxTwo) 1 0x123 0x7FF true 20 200).1 = some m1 ∧
      (m1.rxArray.getD 1 default).ident =
        (if true then (0x123 &&& 0x7FF) <<< 2 ||| 2 else (0x123 &&& 0x7FF) <<< 2) ∧
      Nat.testBit (m1.rxArray.getD 1 default).ident 1 = true ∧
      Nat.testBit (m1.rxArray.getD 1 default).ident 0 = false ∧
      (m1.rxArray.getD 1 default).mask = (0x7FF &&& 0x7FF) <<< 2 ||| 2 ∧
      Nat.testBit (m1.rxArray.getD 1 default).mask 1 = true ∧
      Nat.testBit (m1.rxArray.getD 1 default).mask 0 = false ∧
      (m1.rxArray.getD 1 default).object = 20 ∧
      (m1.rxArray.getD 1 default).pFunct = 200 ∧
      m1.rxArray.length = sampleModuleRxTwo.rxArray.length ∧
      (∀ j, j ≠ 1 → m1.rxArray[j]? = sampleModuleRxTwo.rxArray[j]?) :=
  CO_CANrxBufferInit_stores sampleModuleRxTwo 1 0x123 0x7FF true 20 200 (by decide) (by decide)

/-! ## Registering a transmit slot -/

/-- C12.  `CO_CANtxBufferInit` returns `NULL` and changes nothing when the
module is null or `index >= txSize`.  For `index < txSize` (in a table of
`txSize` slots) it returns the slot at `index`; that slot then has
`bufferFull = false`, `DLC` the data length given and `syncFlag` the flag
given, whatever it held before; its payload is kept, every other slot and
`CANtxCount` are unchanged. -/
theorem CO_CANtxBufferInit_slot (index ident : Nat) (rtr : Bool) (noOfBytes : Nat)
    (syncFlag : Bool) :
    CO_CANtxBufferInit none index ident rtr noOfBytes syncFlag = (none, none) ∧
      (∀ m : CO_CANmodule_t, m.txSize ≤ index →
        CO_CANtxBufferInit (some m) index ident rtr noOfBytes syncFlag = (some m, none)) ∧
      (∀ m : CO_CANmodule_t, index < m.txSize → m.txArray.length = m.txSize →
        ∃ m1, CO_CANtxBufferInit (some m) index ident rtr noOfBytes syncFlag =
            (some m1, some index) ∧
          (m1.txArray.getD index default).bufferFull = false ∧
          (m1.txArray.getD index default).DLC = noOfBytes ∧
          (m1.txArray.getD index default).syncFlag = syncFlag ∧
          (m1.txArray.getD index default).data = (m.txArray.getD index default).data ∧
          m1.txArray.length = m.txArray.length ∧
          (∀ j, j ≠ index → m1.txArray[j]? = m.txArray[j]?) ∧
          m1.CANtxCount = m.CANtxCount ∧ m1.txSize = m.txSize) := by
  refine ⟨rfl, ?_, ?_⟩
  · intro m hle
    have : ¬ index < m.txSize := by omega
    simp [CO_CANtxBufferInit, this]
  · intro m hidx hlen
    have hb : index < m.txArray.length := by omega
    have hget : ∀ b : CO_CANtx_t, (m.txArray.set index b).getD index default = b := by
      intro b
      simp [List.getD_eq_getElem?_getD, hb]
    simp only [CO_CANtxBufferInit, hidx, if_true]
    refine ⟨_, rfl, ?_⟩
    simp only [hget]
    refine ⟨by trivial, by trivial, by trivial, by trivial, by simp, ?_, by trivial, by trivial⟩
    intro j hj
    simp [List.getElem?_set, Ne.symm hj]

/-- Witness of C12: registering the full slot 0 of `sampleModule` again. -/
theorem CO_CANtxBufferInit_slot_witness :
    ∃ m1, CO_CANtxBufferInit (some sampleModule) 0 0x181 false 4 false =
        (some m1, some 0) ∧
      (m1.txArray.getD 0 default).bufferFull = false ∧
      (m1.txArray.getD 0 default).DLC = 4 ∧
      (m1.txArray.getD 0 default).syncFlag = false ∧
      (m1.txArray.getD 0 default).data = (sampleModule.txArray.getD 0 default).data ∧
      m1.txArray.length = sampleModule.txArray.length ∧
      (∀ j, j ≠ 0 → m1.txArray[j]? = sampleModule.txArray[j]?) ∧
      m1.CANtxCount = sampleModule.CANtxCount ∧ m1.txSize = sampleModule.txSize :=
  (CO_CANtxBufferInit_slot 0 0x181 false 4 false).2.2 sampleModule (by decide) (by decide)

/-- Shifting left by two, setting bit 1 and shifting right by two gives the
number back. -/
theorem shiftLeft_two_or_two_shiftRight (id : Nat) : (id <<< 2 ||| 2) >>> 2 = id := by
  apply Nat.eq_of_testBit_eq
  intro i
  simp [Nat.testBit_shiftRight, Nat.testBit_or, Nat.testBit_shiftLeft, testBit_two]
  intro h
  omega

/-- Bit 1 of a number shifted left by two with bit 1 set. -/
theorem shiftLeft_two_or_two_and_two (id : Nat) : (id <<< 2 ||| 2) &&& 2 = 2 := by
  apply Nat.eq_of_testBit_eq
  intro i
  simp [Nat.testBit_and, Nat.testBit_or, Nat.testBit_shiftLeft, testBit_two]
  intro h
  exact Or.inr h

/-- Bit 1 of a number shifted left by two is clear. -/
theorem shiftLeft_two_and_two (id : Nat) : id <<< 2 &&& 2 = 0 := by
  apply Nat.eq_of_testBit_eq
  intro i
  simp [Nat.testBit_and, Nat.testBit_shiftLeft, testBit_two]
  omega

/-- C13.  For an 11-bit identifier `id`, every `rtr` flag and every data
length `n`, the wire header that `prepareTxHeader` builds from the slot that
`CO_CANtxBufferInit` has set up (at an index below `txSize` of a table of
`txSize` slots) has `id` as identifier, `n` as length, the
standard-identifier format, and a type flag that is 2 for a remote request
and 0 otherwise, so non-zero iff `rtr`. -/
theorem prepareTxHeader_CO_CANtxBufferInit (m : CO_CANmodule_t) (index id : Nat) (rtr : Bool)
    (n : Nat) (syncFlag : Bool) (hid : id ≤ 0x7FF) (hidx : index < m.txSize)
    (hlen : m.txArray.length = m.txSize) :
    ∃ m1, CO_CANtxBufferInit (some m) index id rtr n syncFlag = (some m1, some index) ∧
      (prepareTxHeader (m1.txArray.getD index default)).id = id ∧
      (prepareTxHeader (m1.txArray.getD index default)).len = n ∧
      (prepareTxHeader (m1.txArray.getD index default)).fmt = CAN_FMT_STDID ∧
      (prepareTxHeader (m1.txArray.getD index default)).type = (if rtr then 2 else 0) ∧
      ((prepareTxHeader (m1.txArray.getD index default)).type ≠ 0 ↔ rtr = true) := by
  have hb : index < m.txArray.length := by omega
  have hget : ∀ b : CO_CANtx_t, (m.txArray.set index b).getD index default = b := by
    intro b
    simp [List.getD_eq_getElem?_getD, hb]
  have hmod : (id <<< 2) % 4294967296 = id <<< 2 := by
    apply Nat.mod_eq_of_lt
    rw [Nat.shiftLeft_eq]
    omega
  have hshr : (id <<< 2) >>> 2 = id := by
    rw [Nat.shiftLeft_eq, Nat.shiftRight_eq_div_pow]
    omega
  simp only [CO_CANtxBufferInit, hidx, if_true]
  refine ⟨_, rfl, ?_⟩
  simp only [hget, prepareTxHeader, hmod]
  cases rtr
  · simp [hshr, shiftLeft_two_and_two]
  · simp [shiftLeft_two_or_two_shiftRight, shiftLeft_two_or_two_and_two]

/-- Witness of C13: identifier `0x181`, remote request, 4 bytes, slot 1 of
`sampleModule`. -/
theorem prepareTxHeader_CO_CANtxBufferInit_witness :
    ∃ m1, CO_CANtxBufferInit (some sampleModule) 1 0x181 true 4 false = (some m1, some 1) ∧
      (prepareTxHeader (m1.txArray.getD 1 default)).id = 0x181 ∧
      (prepareTxHeader (m1.txArray.getD 1 default)).len = 4 ∧
      (prepareTxHeader (m1.txArray.getD 1 default)).fmt = CAN_FMT_STDID ∧
      (prepareTxHeader (m1.txArray.getD 1 default)).type = (if true then 2 else 0) ∧
      ((prepareTxHeader (m1.txArray.getD 1 default)).type ≠ 0 ↔ true = true) :=
  prepareTxHeader_CO_CANtxBufferInit sampleModule 1 0x181 true 4 false (by decide) (by decide)
    (by decide)

/-! ## Module lifecycle -/

/-- The `switch` of `CO_CANmodule_init` chooses a prescaler exactly for the
eight bit-rates of the table. -/
theorem CO_CANmodule_init_Prescaler_isSome (CANbitRate : Nat) :
    (CO_CANmodule_init_Prescaler CANbitRate).isSome = true ↔
      CANbitRate ∈ [1000, 500, 250, 125, 100, 50, 20, 10] := by
  unfold CO_CANmodule_init_Prescaler
  simp only [List.mem_cons, List.mem_singleton, List.mem_nil_iff, or_false]
  split_ifs <;> simp_all

/-- Return code, module object and calls of `CO_CANmodule_init` when no
argument is null. -/
theorem CO_CANmodule_init_nonnull (m0 : CO_CANmodule_t) (HALCanObject : Nat)
    (rx : List CO_CANrx_t) (rxSize : Nat) (tx : List CO_CANtx_t) (txSize CANbitRate : Nat)
    (enableOk : Bool) :
    CO_CANmodule_init (some m0) HALCanObject (some rx) rxSize (some tx) txSize CANbitRate
        enableOk =
      (some
        { CANBaseDescriptor := HALCanObject
          rxArray := CO_CANmodule_init_rxLoop rxSize 0 rx
          rxSize := rxSize
          txArray := CO_CANmodule_init_txLoop txSize 0 tx
          txSize := txSize
          CANnormal := false
          useCANrxFilters := false
          bufferInhibitFlag := false
          firstCANtxMessage := true
          CANtxCount := 0
          errOld := 0
          em := 0 },
       (if (CO_CANmodule_init_Prescaler CANbitRate).isSome then
          (if enableOk then CO_ERROR_NO else CO_ERROR_HAL)
        else CO_ERROR_ILLEGAL_BAUDRATE),
       [Call.can_async_enable HALCanObject, Call.can_async_enable HALCanObject]) := by
  unfold CO_CANmodule_init
  cases h : CO_CANmodule_init_Prescaler CANbitRate <;> simp [CO_CANmodule_disable]

/-- C14.  With non-null module and slot storage and a hardware enable that
succeeds, `CO_CANmodule_init` returns `CO_ERROR_NO` exactly when the bit-rate
is one of 1000, 500, 250, 125, 100, 50, 20, 10, for which the `switch` chooses
the prescaler 5, 10, 20, 40, 50, 100, 250, 500; for every other bit-rate it
returns `CO_ERROR_ILLEGAL_BAUDRATE` (whatever the enable answers) and no
prescaler is chosen.  With a null module or null storage it returns
`CO_ERROR_ILLEGAL_ARGUMENT`. -/
theorem CO_CANmodule_init_bitRate (m0 : CO_CANmodule_t) (HALCanObject : Nat)
    (rx : List CO_CANrx_t) (rxSize : Nat) (tx : List CO_CANtx_t) (txSize CANbitRate : Nat) :
    ((CO_CANmodule_init (some m0) HALCanObject (some rx) rxSize (some tx) txSize CANbitRate
          true).2.1 = CO_ERROR_NO ↔
        CANbitRate ∈ [1000, 500, 250, 125, 100, 50, 20, 10]) ∧
      (CANbitRate ∉ [1000, 500, 250, 125, 100, 50, 20, 10] →
        CO_CANmodule_init_Prescaler CANbitRate = none ∧
        ∀ enableOk : Bool,
          (CO_CANmodule_init (some m0) HALCanObject (some rx) rxSize (some tx) txSize CANbitRate
            enableOk).2.1 = CO_ERROR_ILLEGAL_BAUDRATE) ∧
      (CO_CANmodule_init_Prescaler 1000 = some 5 ∧ CO_CANmodule_init_Prescaler 500 = some 10 ∧
        CO_CANmodule_init_Prescaler 250 = some 20 ∧ CO_CANmodule_init_Prescaler 125 = some 40 ∧
        CO_CANmodule_init_Prescaler 100 = some 50 ∧ CO_CANmodule_init_Prescaler 50 = some 100 ∧
        CO_CANmodule_init_Prescaler 20 = some 250 ∧ CO_CANmodule_init_Prescaler 10 = some 500) ∧
      (∀ (CANmodule : Option CO_CANmodule_t) (rxArray : Option (List CO_CANrx_t))
          (txArray : Option (List CO_CANtx_t)) (enableOk : Bool),
        CANmodule = none ∨ rxArray = none ∨ txArray = none →
        (CO_CANmodule_init CANmodule HALCanObject rxArray rxSize txArray txSize CANbitRate
          enableOk).2.1 = CO_ERROR_ILLEGAL_ARGUMENT) := by
  have hsome := CO_CANmodule_init_Prescaler_isSome CANbitRate
  refine ⟨?_, ?_, by decide, ?_⟩
  · rw [CO_CANmodule_init_nonnull, ← hsome]
    cases (CO_CANmodule_init_Prescaler CANbitRate).isSome <;> simp
  · intro hn
    have hf : (CO_CANmodule_init_Prescaler CANbitRate).isSome = false := by
      cases hs : (CO_CANmodule_init_Prescaler CANbitRate).isSome with
      | false => rfl
      | true => exact absurd (hsome.mp hs) hn
    refine ⟨by simpa using hf, ?_⟩
    intro enableOk
    rw [CO_CANmodule_init_nonnull, hf]
    rfl
  · intro CANmodule rxArray txArray enableOk hnull
    unfold CO_CANmodule_init
    rcases hnull with h | h | h
    · subst h; rfl
    · subst h; cases CANmodule <;> rfl
    · subst h; cases CANmodule <;> cases rxArray <;> rfl

/-- Witness of C14: bit-rate 123 is not in the table, so initialisation fails
with `CO_ERROR_ILLEGAL_BAUDRATE`. -/
theorem CO_CANmodule_init_bitRate_witness :
    CO_CANmodule_init_Prescaler 123 = none ∧
      ∀ enableOk : Bool,
        (CO_CANmodule_init (some sampleModule) 7 (some []) 0 (some sampleModule.txArray) 4 123
          enableOk).2.1 = CO_ERROR_ILLEGAL_BAUDRATE :=
  (CO_CANmodule_init_bitRate sampleModule 7 [] 0 sampleModule.txArray 4 123).2.1 (by decide)

/-- C15, counterexample.  `CO_CANmodule_init` with the bit-rate 123 returns
`CO_ERROR_ILLEGAL_BAUDRATE` after two `can_async_enable` requests have gone to
the hardware: that of `CO_CANmodule_disable` and that of the function body. -/
theorem CO_CANmodule_init_illegal_baudrate_calls_hardware :
    (CO_CANmodule_init (some sampleModule) 7 (some []) 0 (some sampleModule.txArray) 4 123
        true).2.1 = CO_ERROR_ILLEGAL_BAUDRATE ∧
      (CO_CANmodule_init (some sampleModule) 7 (some []) 0 (some sampleModule.txArray) 4 123
        true).2.2 = [Call.can_async_enable 7, Call.can_async_enable 7] := by
  decide

/-- C15, amended.  `CO_CANmodule_init`, called with non-null arguments and a
bit-rate outside the table, fails with `CO_ERROR_ILLEGAL_BAUDRATE` after the
module object has been set up and after the hardware requests of the common
path have been issued: the `can_async_enable` of `CO_CANmodule_disable` and
the `can_async_enable` of the function body, and no other.  Module object and
hardware requests are those of a call with any other bit-rate. -/
theorem CO_CANmodule_init_illegal_baudrate (m0 : CO_CANmodule_t) (HALCanObject : Nat)
    (rx : List CO_CANrx_t) (rxSize : Nat) (tx : List CO_CANtx_t) (txSize CANbitRate : Nat)
    (enableOk : Bool) (hrate : CANbitRate ∉ [1000, 500, 250, 125, 100, 50, 20, 10]) :
    (CO_CANmodule_init (some m0) HALCanObject (some rx) rxSize (some tx) txSize CANbitRate
        enableOk).2.1 = CO_ERROR_ILLEGAL_BAUDRATE ∧
      (CO_CANmodule_init (some m0) HALCanObject (some rx) rxSize (some tx) txSize CANbitRate
        enableOk).2.2 = [Call.can_async_enable HALCanObject, Call.can_async_enable HALCanObject] ∧
      ∀ (rate2 : Nat) (enableOk2 : Bool),
        (CO_CANmodule_init (some m0) HALCanObject (some rx) rxSize (some tx) txSize rate2
            enableOk2).1 =
          (CO_CANmodule_init (some m0) HALCanObject (some rx) rxSize (some tx) txSize CANbitRate
            enableOk).1 ∧
        (CO_CANmodule_init (some m0) HALCanObject (some rx) rxSize (some tx) txSize rate2
            enableOk2).2.2 =
          (CO_CANmodule_init (some m0) HALCanObject (some rx) rxSize (some tx) txSize CANbitRate
            enableOk).2.2 := by
  have hf : (CO_CANmodule_init_Prescaler CANbitRate).isSome = false := by
    cases hs : (CO_CANmodule_init_Prescaler CANbitRate).isSome with
    | false => rfl
    | true => exact absurd ((CO_CANmodule_init_Prescaler_isSome CANbitRate).mp hs) hrate
  refine ⟨?_, ?_, ?_⟩
  · rw [CO_CANmodule_init_nonnull, hf]
    rfl
  · rw [CO_CANmodule_init_nonnull]
  · intro rate2 enableOk2
    rw [CO_CANmodule_init_nonnull, CO_CANmodule_init_nonnull]
    exact ⟨rfl, rfl⟩

/-- Witness of C15 (amended): bit-rate 123 on the storage of `sampleModule`. -/
theorem CO_CANmodule_init_illegal_baudrate_witness :
    (CO_CANmodule_init (some sampleModule) 7 (some []) 0 (some sampleModule.txArray) 4 123
        true).2.2 = [Call.can_async_enable 7, Call.can_async_enable 7] :=
  (CO_CANmodule_init_illegal_baudrate sampleModule 7 [] 0 sampleModule.txArray 4 123 true
    (by decide)).2.1

/-- C16, counterexample.  `sampleModule` is in normal mode (`CANnormal` is
true).  A `CO_CANsetNormalMode` whose enable fails returns `CO_ERROR_HAL` and
the flag is still true afterwards. -/
theorem CO_CANsetNormalMode_failure_keeps_flag :
    sampleModule.CANnormal = true ∧
      (CO_CANsetNormalMode sampleModule false).2.1 = CO_ERROR_HAL ∧
      (CO_CANsetNormalMode sampleModule false).1.CANnormal = true := by
  decide

/-- C16, amended.  `CO_CANsetNormalMode` asks the hardware once to enable the
channel.  If the enable fails it returns `CO_ERROR_HAL` and leaves the module
unchanged, so `CANnormal` keeps its value: false if it was false, as after
`CO_CANmodule_init`.  If the enable succeeds it returns `CO_ERROR_NO`, and
`CANnormal` is true afterwards, nothing else of the module being changed. -/
theorem CO_CANsetNormalMode_result (m : CO_CANmodule_t) :
    ((CO_CANsetNormalMode m false).2.1 = CO_ERROR_HAL ∧
        (CO_CANsetNormalMode m false).1 = m ∧
        (m.CANnormal = false → (CO_CANsetNormalMode m false).1.CANnormal = false)) ∧
      ((CO_CANsetNormalMode m true).2.1 = CO_ERROR_NO ∧
        (CO_CANsetNormalMode m true).1.CANnormal = true ∧
        (CO_CANsetNormalMode m true).1 = { m with CANnormal := true }) ∧
      (∀ enableOk : Bool,
        (CO_CANsetNormalMode m enableOk).2.2 = [Call.can_async_enable m.CANBaseDescriptor]) := by
  refine ⟨⟨rfl, rfl, fun h => h⟩, ⟨rfl, rfl, rfl⟩, ?_⟩
  intro enableOk
  cases enableOk <;> rfl

/-- Witness of C16 (amended): after `CO_CANmodule_init` the flag is false and a
failing enable leaves it false. -/
theorem CO_CANsetNormalMode_result_witness :
    (CO_CANsetNormalMode sampleModuleAfterInit false).1.CANnormal = false :=
  (CO_CANsetNormalMode_result sampleModuleAfterInit).1.2.2 (by decide)

/-! ## Error monitor -/

/-- `CO_CANverifyErrors` on a bitmap that differs from the last one seen: the
bitmap is stored and the calls are those of the branches of the function. -/
theorem CO_CANverifyErrors_changed (K : HAL_CAN_ERROR_masks) (m : CO_CANmodule_t) (b : Nat)
    (isError : Bool) (h : m.errOld ≠ b) :
    CO_CANverifyErrors K m b isError =
      ({ m with errOld := b },
       (if b &&& K.HAL_CAN_ERROR_BOF != 0 then
          [Call.CO_errorReport CO_EM_CAN_TX_BUS_OFF CO_EMC_BUS_OFF_RECOVERED b]
        else
          [Call.CO_errorReset CO_EM_CAN_TX_BUS_OFF b]
          ++ (if b &&& K.HAL_CAN_ERROR_EWG != 0 then
                [Call.CO_errorReport CO_EM_CAN_BUS_WARNING CO_EMC_NO_ERROR b]
              else [])
          ++ (if b &&& K.HAL_CAN_ERROR_EPV != 0 then
                (if !m.firstCANtxMessage then
                  [Call.CO_errorReport CO_EM_CAN_TX_BUS_PASSIVE CO_EMC_CAN_PASSIVE b]
                 else [])
              else
                (if isError then
                  [Call.CO_errorReset CO_EM_CAN_TX_BUS_PASSIVE b,
                   Call.CO_errorReset CO_EM_CAN_TX_OVERFLOW b]
                 else []))
          ++ (if b &&& K.HAL_CAN_ERROR_NONE != 0 then
                [Call.CO_errorReset CO_EM_CAN_BUS_WARNING b]
              else []))
       ++ (if b &&& K.HAL_CAN_ERROR_RX_FOV0 != 0 || b &&& K.HAL_CAN_ERROR_RX_FOV1 != 0 then
            [Call.CO_errorReport CO_EM_CAN_RXB_OVERFLOW CO_EMC_CAN_OVERRUN b]
          else [])) := by
  have hne : (m.errOld != b) = true := by simpa using h
  simp only [CO_CANverifyErrors, hne, if_true]

/-- `CO_CANverifyErrors` on the bitmap seen last: nothing happens. -/
theorem CO_CANverifyErrors_same (K : HAL_CAN_ERROR_masks) (m : CO_CANmodule_t) (b : Nat)
    (isError : Bool) (h : m.errOld = b) :
    CO_CANverifyErrors K m b isError = (m, []) := by
  have hne : (m.errOld != b) = false := by simpa using h
  simp only [CO_CANverifyErrors, hne, Bool.false_eq_true, if_false]

/-- After `CO_CANverifyErrors` the bitmap seen last is the bitmap of the
poll. -/
theorem CO_CANverifyErrors_errOld (K : HAL_CAN_ERROR_masks) (m : CO_CANmodule_t) (b : Nat)
    (isError : Bool) : (CO_CANverifyErrors K m b isError).1.errOld = b := by
  by_cases h : m.errOld = b
  · rw [CO_CANverifyErrors_same K m b isError h]
    exact h
  · rw [CO_CANverifyErrors_changed K m b isError h]

/-- C17.  When the hardware bitmap equals `errOld`, `CO_CANverifyErrors` makes
no call to the emergency object (no report, no reset) and leaves the module
unchanged.  So of two consecutive polls with the same bitmap `b` the second
makes no call and changes nothing, whatever the state before the first poll
was. -/
theorem CO_CANverifyErrors_idempotent (K : HAL_CAN_ERROR_masks) (m : CO_CANmodule_t) (b : Nat)
    (isError : Bool) :
    (m.errOld = b → CO_CANverifyErrors K m b isError = (m, [])) ∧
      (∀ isError2 : Bool,
        (CO_CANverifyErrors K (CO_CANverifyErrors K m b isError).1 b isError2).2 = [] ∧
        (CO_CANverifyErrors K (CO_CANverifyErrors K m b isError).1 b isError2).1 =
          (CO_CANverifyErrors K m b isError).1) := by
  refine ⟨CO_CANverifyErrors_same K m b isError, ?_⟩
  intro isError2
  rw [CO_CANverifyErrors_same K _ b isError2 (CO_CANverifyErrors_errOld K m b isError)]
  exact ⟨rfl, rfl⟩

/-- Witness of C17: `sampleModuleWarning` has seen the bitmap 1 last. -/
theorem CO_CANverifyErrors_idempotent_witness :
    CO_CANverifyErrors sampleMasks sampleModuleWarning 1 true = (sampleModuleWarning, []) :=
  (CO_CANverifyErrors_idempotent sampleMasks sampleModuleWarning 1 true).1 (by decide)

/-- Filtering a list chosen by a condition is choosing between the filtered
lists. -/
theorem filter_ite (p : Call → Bool) (c : Prop) [Decidable c] (l1 l2 : List Call) :
    List.filter p (if c then l1 else l2) = if c then List.filter p l1 else List.filter p l2 := by
  split <;> rfl

/-- C18.  If the bitmap seen last has the bus-off bit set and the bitmap of
the poll has it clear, `CO_CANverifyErrors` makes exactly one reset call for
`CO_EM_CAN_TX_BUS_OFF` and no report of it.  Conversely, on a changed bitmap
with the bus-off bit set it makes exactly one report of
`CO_EM_CAN_TX_BUS_OFF`, no report of the warning or the passive condition and
no reset at all. -/
theorem CO_CANverifyErrors_bus_off (K : HAL_CAN_ERROR_masks) (m : CO_CANmodule_t) (b : Nat)
    (isError : Bool) :
    (m.errOld &&& K.HAL_CAN_ERROR_BOF ≠ 0 → b &&& K.HAL_CAN_ERROR_BOF = 0 →
        resetsOf CO_EM_CAN_TX_BUS_OFF (CO_CANverifyErrors K m b isError).2 =
          [Call.CO_errorReset CO_EM_CAN_TX_BUS_OFF b] ∧
        reportsOf CO_EM_CAN_TX_BUS_OFF (CO_CANverifyErrors K m b isError).2 = []) ∧
      (m.errOld ≠ b → b &&& K.HAL_CAN_ERROR_BOF ≠ 0 →
        reportsOf CO_EM_CAN_TX_BUS_OFF (CO_CANverifyErrors K m b isError).2 =
          [Call.CO_errorReport CO_EM_CAN_TX_BUS_OFF CO_EMC_BUS_OFF_RECOVERED b] ∧
        reportsOf CO_EM_CAN_BUS_WARNING (CO_CANverifyErrors K m b isError).2 = [] ∧
        reportsOf CO_EM_CAN_TX_BUS_PASSIVE (CO_CANverifyErrors K m b isError).2 = [] ∧
        ∀ e : CO_EM_errorStatusBits, resetsOf e (CO_CANverifyErrors K m b isError).2 = []) := by
  refine ⟨?_, ?_⟩
  · intro hold hnew
    have hch : m.errOld ≠ b := by
      intro h
      rw [h] at hold
      exact hold hnew
    rw [CO_CANverifyErrors_changed K m b isError hch]
    simp only [hnew, bne_self_eq_false, Bool.false_eq_true, if_false, resetsOf, reportsOf,
      List.filter_append, filter_ite]
    refine ⟨?_, ?_⟩ <;> simp
  · intro hch hbof
    have hb : (b &&& K.HAL_CAN_ERROR_BOF != 0) = true := by simpa using hbof
    rw [CO_CANverifyErrors_changed K m b isError hch]
    simp only [hb, if_true, resetsOf, reportsOf, List.filter_append, filter_ite]
    refine ⟨?_, ?_, ?_, ?_⟩
    · simp
    · simp
    · simp
    · intro e
      simp

/-- Witness of C18: `sampleModuleBusOff` has seen bus off last, the poll sees
the bitmap 0. -/
theorem CO_CANverifyErrors_bus_off_witness :
    resetsOf CO_EM_CAN_TX_BUS_OFF (CO_CANverifyErrors sampleMasks sampleModuleBusOff 0 false).2 =
        [Call.CO_errorReset CO_EM_CAN_TX_BUS_OFF 0] ∧
      reportsOf CO_EM_CAN_TX_BUS_OFF
        (CO_CANverifyErrors sampleMasks sampleModuleBusOff 0 false).2 = [] :=
  (CO_CANverifyErrors_bus_off sampleMasks sampleModuleBusOff 0 false).1 (by decide) (by decide)

/-- C19, the code at the failing input.  `sampleModuleWarning` has seen the
warning bitmap 1 last and the poll sees the bitmap 0 (no error): the bitmap
has changed, its bus-off bit and its warning bit are clear.  Whatever the
values of the bit masks are, `CO_CANverifyErrors` resets the bus-off
condition (and the passive and overflow conditions when the emergency object
says passive was active) and makes no reset call for `CO_EM_CAN_BUS_WARNING`:
the test `HalCanErrorCode & HAL_CAN_ERROR_NONE` that guards this reset is 0
for the bitmap 0. -/
theorem CO_CANverifyErrors_warning_not_reset (K : HAL_CAN_ERROR_masks) (isError : Bool) :
    sampleModuleWarning.errOld ≠ 0 ∧
      0 &&& K.HAL_CAN_ERROR_BOF = 0 ∧ 0 &&& K.HAL_CAN_ERROR_EWG = 0 ∧
      (CO_CANverifyErrors K sampleModuleWarning 0 isError).2 =
        [Call.CO_errorReset CO_EM_CAN_TX_BUS_OFF 0] ++
          (if isError then
            [Call.CO_errorReset CO_EM_CAN_TX_BUS_PASSIVE 0,
             Call.CO_errorReset CO_EM_CAN_TX_OVERFLOW 0]
           else []) ∧
      resetsOf CO_EM_CAN_BUS_WARNING (CO_CANverifyErrors K sampleModuleWarning 0 isError).2 =
        [] := by
  have hch : sampleModuleWarning.errOld ≠ 0 := by decide
  rw [CO_CANverifyErrors_changed K sampleModuleWarning 0 isError hch]
  refine ⟨hch, by simp, by simp, ?_, ?_⟩
  · cases isError <;> simp
  · cases isError <;> simp [resetsOf]

/-- C20.  On a changed bitmap with the bus-off bit clear: if the passive bit
is set, `CO_CANverifyErrors` reports `CO_EM_CAN_TX_BUS_PASSIVE` once when
`firstCANtxMessage` is false and not at all when it is true, and resets
neither the passive nor the overflow condition; if the passive bit is clear,
it resets `CO_EM_CAN_TX_BUS_PASSIVE` and `CO_EM_CAN_TX_OVERFLOW`, once each,
when the emergency object says bus-passive is active, resets neither of them
otherwise, and does not report the passive condition. -/
theorem CO_CANverifyErrors_passive (K : HAL_CAN_ERROR_masks) (m : CO_CANmodule_t) (b : Nat)
    (isError : Bool) (hch : m.errOld ≠ b) (hbof : b &&& K.HAL_CAN_ERROR_BOF = 0) :
    (b &&& K.HAL_CAN_ERROR_EPV ≠ 0 →
        reportsOf CO_EM_CAN_TX_BUS_PASSIVE (CO_CANverifyErrors K m b isError).2 =
          (if m.firstCANtxMessage = false then
            [Call.CO_errorReport CO_EM_CAN_TX_BUS_PASSIVE CO_EMC_CAN_PASSIVE b]
           else []) ∧
        resetsOf CO_EM_CAN_TX_BUS_PASSIVE (CO_CANverifyErrors K m b isError).2 = [] ∧
        resetsOf CO_EM_CAN_TX_OVERFLOW (CO_CANverifyErrors K m b isError).2 = []) ∧
      (b &&& K.HAL_CAN_ERROR_EPV = 0 →
        resetsOf CO_EM_CAN_TX_BUS_PASSIVE (CO_CANverifyErrors K m b isError).2 =
          (if isError = true then [Call.CO_errorReset CO_EM_CAN_TX_BUS_PASSIVE b] else []) ∧
        resetsOf CO_EM_CAN_TX_OVERFLOW (CO_CANverifyErrors K m b isError).2 =
          (if isError = true then [Call.CO_errorReset CO_EM_CAN_TX_OVERFLOW b] else []) ∧
        reportsOf CO_EM_CAN_TX_BUS_PASSIVE (CO_CANverifyErrors K m b isError).2 = []) := by
  rw [CO_CANverifyErrors_changed K m b isError hch]
  simp only [hbof, bne_self_eq_false, Bool.false_eq_true, if_false, resetsOf, reportsOf,
    List.filter_append, filter_ite]
  refine ⟨?_, ?_⟩
  · intro hepv
    have he : (b &&& K.HAL_CAN_ERROR_EPV != 0) = true := by simpa using hepv
    simp only [he, if_true]
    refine ⟨?_, ?_, ?_⟩ <;> cases m.firstCANtxMessage <;> simp
  · intro hepv
    simp only [hepv, bne_self_eq_false, Bool.false_eq_true, if_false]
    refine ⟨?_, ?_, ?_⟩ <;> cases isError <;> simp

/-- Witness of C20: `sampleModuleWarning` (first frame sent) sees the bitmap 3,
warning and passive, with the masks `sampleMasks`. -/
theorem CO_CANverifyErrors_passive_witness :
    reportsOf CO_EM_CAN_TX_BUS_PASSIVE
        (CO_CANverifyErrors sampleMasks sampleModuleWarning 3 false).2 =
      (if sampleModuleWarning.firstCANtxMessage = false then
        [Call.CO_errorReport CO_EM_CAN_TX_BUS_PASSIVE CO_EMC_CAN_PASSIVE 3]
       else []) ∧
      resetsOf CO_EM_CAN_TX_BUS_PASSIVE
        (CO_CANverifyErrors sampleMasks sampleModuleWarning 3 false).2 = [] ∧
      resetsOf CO_EM_CAN_TX_OVERFLOW
        (CO_CANverifyErrors sampleMasks sampleModuleWarning 3 false).2 = [] :=
  (CO_CANverifyErrors_passive sampleMasks sampleModuleWarning 3 false (by decide)
    (by decide)).1 (by decide)

/-! ## Exact-match filtering, end to end -/

/-- The slot that a successful `CO_CANrxBufferInit` leaves at `index` in a
receive table of `rxSize` slots. -/
theorem CO_CANrxBufferInit_registered_slot (m : CO_CANmodule_t) (index ident mask : Nat)
    (rtr : Bool) (object pFunct : Nat) (hlen : m.rxArray.length = m.rxSize)
    (hsucc : (CO_CANrxBufferInit (some m) index ident mask rtr object pFunct).2.1 =
      CO_ERROR_NO) :
    ∃ m1, (CO_CANrxBufferInit (some m) index ident mask rtr object pFunct).1 = some m1 ∧
      m1.rxArray.getD index default =
        { ident := (if rtr then (ident &&& 0x7FF) <<< 2 ||| 2 else (ident &&& 0x7FF) <<< 2)
          mask := (mask &&& 0x7FF) <<< 2 ||| 2
          object := object
          pFunct := pFunct } := by
  have hguard : (object != 0 && pFunct != 0 && decide (index < m.rxSize)) = true := by
    cases hg : (object != 0 && pFunct != 0 && decide (index < m.rxSize)) with
    | true => rfl
    | false => simp [CO_CANrxBufferInit, hg] at hsucc
  have hidx : index < m.rxArray.length := by
    simp only [Bool.and_eq_true, decide_eq_true_eq] at hguard
    omega
  have hget : ∀ b : CO_CANrx_t, (m.rxArray.set index b).getD index default = b := by
    intro b
    simp [List.getD_eq_getElem?_getD, hidx]
  simp only [CO_CANrxBufferInit, hguard, if_true]
  cases m.useCANrxFilters
  · exact ⟨_, rfl, hget _⟩
  · exact ⟨_, rfl, hget _⟩

/-- The bits 1 to 12 of the mask `0x1FFE` are set. -/
theorem testBit_0x1FFE (j : Nat) (h1 : 1 ≤ j) (h2 : j ≤ 12) : Nat.testBit 0x1FFE j = true := by
  interval_cases j <;> decide

/-- Two 11-bit identifiers, shifted left by two, agree on the bits of the mask
`0x1FFE` exactly when they are equal. -/
theorem xor_shiftLeft_and_mask_eq_zero (X Y : Nat) (hX : X ≤ 0x7FF) (hY : Y ≤ 0x7FF) :
    (Y <<< 2 ^^^ X <<< 2) &&& 0x1FFE = 0 ↔ Y = X := by
  constructor
  · intro h
    apply Nat.eq_of_testBit_eq
    intro i
    by_cases hi : i < 11
    · have hb := congrArg (fun n => Nat.testBit n (i + 2)) h
      simp only [Nat.testBit_and, Nat.testBit_xor, Nat.testBit_shiftLeft, Nat.zero_testBit,
        testBit_0x1FFE (i + 2) (by omega) (by omega)] at hb
      simpa using hb
    · have hx : X < 2 ^ i :=
        lt_of_lt_of_le (by omega : X < 2 ^ 11) (Nat.pow_le_pow_right (by decide) (by omega))
      have hy : Y < 2 ^ i :=
        lt_of_lt_of_le (by omega : Y < 2 ^ 11) (Nat.pow_le_pow_right (by decide) (by omega))
      rw [Nat.testBit_lt_two_pow hx, Nat.testBit_lt_two_pow hy]
  · intro h
    subst h
    simp

/-- The encoded identifier of a data frame (`RTR = 0`) with an 11-bit
identifier is the identifier shifted left by two. -/
theorem encodedFrameId_data_frame (Y DLC : Nat) (hY : Y ≤ 0x7FF) :
    encodedFrameId { StdId := Y, RTR := 0, DLC := DLC } = Y <<< 2 := by
  have h1 : (Y <<< 2) % 4294967296 % 65536 = Y <<< 2 := by
    rw [Nat.shiftLeft_eq]
    omega
  simp [encodedFrameId, h1]

/-- C21.  For 11-bit identifiers `X` and `Y`: after `CO_CANrxBufferInit` has
registered a slot (in a receive table of `rxSize` slots) with identifier `X`,
mask `0x7FF` and `rtr = false`, an inbound data frame (`RTR = 0`) with
identifier `Y` satisfies the match condition of that slot if and only if
`Y = X`; the search loop of `CO_CANinterrupt_Rx`, run on that slot alone, sets
`msgMatched` if and only if `Y = X`. -/
theorem exact_match_filtering (m : CO_CANmodule_t) (index X Y DLC object pFunct : Nat)
    (hX : X ≤ 0x7FF) (hY : Y ≤ 0x7FF) (hlen : m.rxArray.length = m.rxSize)
    (hsucc : (CO_CANrxBufferInit (some m) index X 0x7FF false object pFunct).2.1 =
      CO_ERROR_NO) :
    ∃ m1, (CO_CANrxBufferInit (some m) index X 0x7FF false object pFunct).1 = some m1 ∧
      (slotMatches { StdId := Y, RTR := 0, DLC := DLC } (m1.rxArray.getD index default) = true ↔
        Y = X) ∧
      ((CO_CANinterrupt_Rx_loop m1 { StdId := Y, RTR := 0, DLC := DLC } 1 index).1 = true ↔
        Y = X) := by
  obtain ⟨m1, hm1, hslot⟩ :=
    CO_CANrxBufferInit_registered_slot m index X 0x7FF false object pFunct hlen hsucc
  have hand : X &&& 0x7FF = X := by
    have h := Nat.and_pow_two_sub_one_eq_mod X 11
    norm_num at h
    rw [h]
    omega
  have hmask : (0x7FF &&& 0x7FF) <<< 2 ||| 2 = 0x1FFE := by decide
  have hmatch : slotMatches { StdId := Y, RTR := 0, DLC := DLC }
      (m1.rxArray.getD index default) = true ↔ Y = X := by
    rw [hslot]
    simp only [slotMatches, encodedFrameId_data_frame Y DLC hY, Bool.false_eq_true, if_false,
      hand, hmask, beq_iff_eq]
    exact xor_shiftLeft_and_mask_eq_zero X Y hX hY
  refine ⟨m1, hm1, hmatch, ?_⟩
  rw [← hmatch]
  have hcond : ∀ c : Bool,
      slotMatches { StdId := Y, RTR := 0, DLC := DLC } (m1.rxArray.getD index default) = c →
      (CO_CANinterrupt_Rx_loop m1 { StdId := Y, RTR := 0, DLC := DLC } 1 index).1 = c := by
    intro c hc
    have hc1 : ((encodedFrameId { StdId := Y, RTR := 0, DLC := DLC } ^^^
        (m1.rxArray.getD index default).ident) &&&
        (m1.rxArray.getD index default).mask == 0) = c := hc
    cases c <;> simp [-List.getD_eq_getElem?_getD, CO_CANinterrupt_Rx_loop, hc1]
  rw [hcond _ rfl]

/-- Witness of C21: slot 1 of `sampleModuleRxTwo` registered for `0x123`, frame
with identifier `0x123`. -/
theorem exact_match_filtering_witness :
    ∃ m1, (CO_CANrxBufferInit (some sampleModuleRxTwo) 1 0x123 0x7FF false 20 200).1 = some m1 ∧
      (slotMatches { StdId := 0x123, RTR := 0, DLC := 2 } (m1.rxArray.getD 1 default) = true ↔
        0x123 = 0x123) ∧
      ((CO_CANinterrupt_Rx_loop m1 { StdId := 0x123, RTR := 0, DLC := 2 } 1 1).1 = true ↔
        0x123 = 0x123) :=
  exact_match_filtering sampleModuleRxTwo 1 0x123 0x123 2 20 200 (by decide) (by decide)
    (by decide) (by decide)

end CANopen
